import Mathlib

/-!
Shallow embedding of `src/admin/client/src/components/FormBuilder/FormBuilder.js`
(the `FormBuilderComponent` React class of silverstripe-framework) together with
the semantics of the `merge` npm package it calls (`merge.recursive`).

JavaScript values are modelled by the inductive type `JsVal`; objects are
association lists of string keys that preserve insertion order, as JS objects
do for string-keyed properties.  Property access on `undefined`/`null` throws
a TypeError, modelled with `Except String`.  Function values stored in props
are modelled as opaque tagged values (`JsVal.func`).  Object identity
(aliasing) is not modelled; where the source relies on mutation
(`merge.recursive` without its clone flag) the post-state of the mutated
argument is returned explicitly.
-/

set_option autoImplicit false

namespace FormBuilderSpec

/-- A JavaScript value: `undefined`, `null`, booleans, numbers (integral —
no claim depends on non-integral arithmetic), strings, arrays and plain
objects.  `func` is an opaque function value identified by a tag, used for
handler props such as `onChange`. -/
inductive JsVal where
  | undef
  | null
  | boolV (b : Bool)
  | numV (n : Int)
  | strV (s : String)
  | func (tag : String)
  | arr (elems : List JsVal)
  | obj (entries : List (String × JsVal))

/-- Look up a key in an object entry list (first occurrence; JS objects never
hold a key twice, so well-formed values have no duplicates). -/
def lookupKey : List (String × JsVal) → String → Option JsVal
  | [], _ => none
  | (k, v) :: rest, key => if k = key then some v else lookupKey rest key

/-- Property assignment `o[key] = v` on an entry list: an existing key keeps
its position, a new key is appended — exactly JS insertion-order semantics. -/
def setKey : List (String × JsVal) → String → JsVal → List (String × JsVal)
  | [], key, v => [(key, v)]
  | (k, w) :: rest, key, v =>
      if k = key then (k, v) :: rest else (k, w) :: setKey rest key v

/-- Array elements as index-keyed properties (`"0"`, `"1"`, ...). -/
def natKeys (i : Nat) : List JsVal → List (String × JsVal)
  | [] => []
  | x :: xs => (toString i, x) :: natKeys (i + 1) xs

/-- String characters as index-keyed properties. -/
def strKeys (i : Nat) : List Char → List (String × JsVal)
  | [] => []
  | c :: cs => (toString i, JsVal.strV (String.singleton c)) :: strKeys (i + 1) cs

/-- The own enumerable properties of a value, in order: object entries, array
elements under index keys, string characters under index keys; primitives
have none.  This is what `for (var key in x)` and `Object.assign` traverse. -/
def ownProps : JsVal → List (String × JsVal)
  | .obj entries => entries
  | .arr xs => natKeys 0 xs
  | .strV s => strKeys 0 s.toList
  | _ => []

/-- Property read on a value that is known not to be `undefined`/`null`:
a missing key yields `undefined`. -/
def getOwnKey (v : JsVal) (key : String) : JsVal :=
  (lookupKey (ownProps v) key).getD JsVal.undef

/-- Whether the value is `undefined` or `null` (the two values on which
property access throws). -/
def isUndefOrNull : JsVal → Bool
  | JsVal.undef => true
  | .null => true
  | _ => false

/-- Property access `v[key]`: a TypeError on `undefined` and `null`,
otherwise the own property (or `undefined`). -/
def jsGet (v : JsVal) (key : String) : Except String JsVal :=
  if isUndefOrNull v then throw ("TypeError: cannot read " ++ key)
  else pure (getOwnKey v key)

/-- JavaScript truthiness. -/
def jsTruthy : JsVal → Bool
  | JsVal.undef => false
  | .null => false
  | .boolV b => b
  | .numV n => decide (n ≠ 0)
  | .strV s => decide (s ≠ "")
  | .func _ => true
  | .arr _ => true
  | .obj _ => true

mutual

/-- String conversion used when a value is used as a property key
(computed keys, `form[formId]`). -/
def keyString : JsVal → String
  | JsVal.undef => "undefined"
  | .null => "null"
  | .boolV b => cond b "true" "false"
  | .numV n => toString n
  | .strV s => s
  | .func tag => tag
  | .arr xs => keyStringList xs
  | .obj _ => "[object Object]"

/-- Array-to-string: elements joined by commas, `null`/`undefined` elements
becoming empty strings. -/
def keyStringList : List JsVal → String
  | [] => ""
  | [x] => if isUndefOrNull x then "" else keyString x
  | x :: y :: rest =>
      (if isUndefOrNull x then "" else keyString x) ++ "," ++ keyStringList (y :: rest)

end

/-- Numeric indexing `v[i]`.  Callers in this file apply it only to values
guarded against `undefined`/`null` by the source. -/
def jsIndexNat (v : JsVal) (i : Nat) : JsVal :=
  match v with
  | .arr xs => xs.getD i JsVal.undef
  | _ => getOwnKey v (toString i)

/-- Whether `typeOf(v) === "object"` in the sense of the `merge` package:
true only for plain objects (arrays and `null` are classified separately). -/
def isPlainObj : JsVal → Bool
  | .obj _ => true
  | _ => false

/-- JavaScript strict equality `===` on the values that occur as ids.
Two structurally distinct objects or arrays are never strictly equal; strict
equality of aliases to one object is not representable here (ids delivered
by the form schema are primitives). -/
def jsStrictEq : JsVal → JsVal → Bool
  | JsVal.undef, JsVal.undef => true
  | .null, .null => true
  | .boolV a, .boolV b => a == b
  | .numV a, .numV b => a == b
  | .strV a, .strV b => a == b
  | _, _ => false

/-- The entry list of an object ([] for anything else). -/
def objEntries : JsVal → List (String × JsVal)
  | .obj entries => entries
  | _ => []

/-- The keys of an entry list, in order. -/
def keysOf (l : List (String × JsVal)) : List String :=
  l.map Prod.fst

/-- Assign every pair of `m` onto `base` in order, later pairs overriding
earlier ones. -/
def assignList (base : List (String × JsVal)) (m : List (String × JsVal)) :
    List (String × JsVal) :=
  m.foldl (fun acc p => setKey acc p.1 p.2) base

/-- Copy the own enumerable properties of `v` onto `base`: one source step
of `Object.assign(base, v)`. -/
def assignEntries (base : List (String × JsVal)) (v : JsVal) : List (String × JsVal) :=
  assignList base (ownProps v)

/-- Property assignment on a value: only objects can take new properties
(assignment to a primitive property is a silent no-op). -/
def setObjKey (v : JsVal) (key : String) (w : JsVal) : JsVal :=
  match v with
  | .obj entries => .obj (setKey entries key w)
  | other => other

mutual

/-- merge_recursive(base, extend) of the npm `merge` package: a non-object
base is replaced by `extend`; an object base absorbs each own enumerable
property of `extend`, recursing when both sides hold plain objects and
overwriting otherwise.  An object base survives a property-less `extend`. -/
def mergeRecursiveFn (base extend_ : JsVal) : JsVal :=
  if isPlainObj base then
    match extend_ with
    | .obj entries => mergeObjEntries base entries
    | .arr xs => mergeArrEntries base 0 xs
    | .strV s => mergeStrEntries base 0 s.toList
    | _ => base
  else extend_

/-- The `for (var key in extend)` loop of merge_recursive for an object
`extend`. -/
def mergeObjEntries (base : JsVal) : List (String × JsVal) → JsVal
  | [] => base
  | (k, v) :: rest =>
      let bk := getOwnKey base k
      mergeObjEntries
        (setObjKey base k (if isPlainObj bk && isPlainObj v then mergeRecursiveFn bk v else v))
        rest

/-- The same loop when `extend` is an array (index keys). -/
def mergeArrEntries (base : JsVal) : Nat → List JsVal → JsVal
  | _, [] => base
  | i, v :: rest =>
      let k := toString i
      let bk := getOwnKey base k
      mergeArrEntries
        (setObjKey base k (if isPlainObj bk && isPlainObj v then mergeRecursiveFn bk v else v))
        (i + 1) rest

/-- The same loop when `extend` is a string (index keys, one-character
string values, never plain objects, hence never recursive). -/
def mergeStrEntries (base : JsVal) : Nat → List Char → JsVal
  | _, [] => base
  | i, c :: rest =>
      mergeStrEntries (setObjKey base (toString i) (.strV (String.singleton c))) (i + 1) rest

end

/-- The main loop of merge(clone, recursive=true, argv) for one argument
`item` already known to be a plain object: each own key of `item` is merged
into `result` by merge_recursive. -/
def mergeItemEntries (result : List (String × JsVal)) : List (String × JsVal) → List (String × JsVal)
  | [] => result
  | (k, v) :: rest =>
      mergeItemEntries
        (setKey result k (mergeRecursiveFn ((lookupKey result k).getD JsVal.undef) v)) rest

/-- merge.recursive(clone, a, b) of the npm `merge` package, two arguments.
Returns (the result, the post-state of `a`): with `clone = true` the result
starts from a fresh `{}` and the inserted values are deep-cloned, so `a` is
left unmodified; with `clone = false` and `a` a plain object, `a` itself is
the mutated result.  Arguments that are not plain objects contribute no
properties (`if (type !== "object") continue`). -/
def mergeRecursiveTwo (clone : Bool) (a b : JsVal) : JsVal × JsVal :=
  let start : List (String × JsVal) := if clone || !isPlainObj a then [] else objEntries a
  let r1 := if isPlainObj a then mergeItemEntries start (objEntries a) else start
  let r2 := if isPlainObj b then mergeItemEntries r1 (objEntries b) else r1
  (JsVal.obj r2, if clone || !isPlainObj a then a else JsVal.obj r2)

/-! ### The FormBuilderComponent -/

/-- Effects the component sends to its collaborators: the bound store action
creators (`schemaActions.setSchema`, `formActions.addForm`,
`formActions.updateField`, `formActions.submitForm`, `formActions.removeForm`)
and the creation of the submit endpoint fetcher. -/
inductive StoreEffect where
  | createEndpoint (url method : JsVal) (defaultData : List (String × JsVal))
  | setSchema (record : JsVal)
  | addForm (record : JsVal)
  | updateField (formId updates : JsVal)
  | submitForm (formId : JsVal) (fieldValues : List (String × JsVal))
  | removeForm (formId : JsVal)

/-- getFormSchema(): `this.props.schemas[this.props.schemaUrl]`. -/
def getFormSchema (schemas : JsVal) (schemaUrl : String) : Except String JsVal :=
  jsGet schemas schemaUrl

/-- getFormId(): the stored schema record's `id` when the record is truthy,
`null` otherwise. -/
def getFormId (schemas : JsVal) (schemaUrl : String) : Except String JsVal := do
  let schema ← getFormSchema schemas schemaUrl
  if jsTruthy schema then jsGet schema "id" else pure .null

/-! #### fetch

The per-instance state that fetch() manipulates.  The constructor sets
`this.state = { isFetching: false }` and `this.formSchemaPromise = null`.
Promises are identified by the index of the network request that created
them; `requests` logs the `X-FormSchema-Request` header of every request
issued so far.  Both `setState` calls inside fetch() are commented out in
the source (TODO markers about `<CampaignAdmin>` route initialisation), so
nothing in the file ever writes `isFetching`. -/

structure FetchState where
  isFetching : Bool
  formSchemaPromise : Option Nat
  requests : List String
  deriving Repr, DecidableEq

/-- The state installed by the constructor. -/
def initialFetchState : FetchState :=
  { isFetching := false, formSchemaPromise := none, requests := [] }

/-- The comma-joined `X-FormSchema-Request` header for given `schema` and
`state` flags. -/
def fetchHeader (schema state : Bool) : String :=
  String.intercalate "," ((if schema then ["schema"] else []) ++ (if state then ["state"] else []))

/-- One synchronous run of fetch(schema, state) up to the point where the
promise is returned: if `this.state.isFetching === true` the stored promise
is returned unchanged; otherwise a new network request is issued, stored in
`this.formSchemaPromise` and returned.  `isFetching` is left untouched on
both paths, mirroring the disabled `setState` calls. -/
def fetchStep (schema state : Bool) (s : FetchState) : Option Nat × FetchState :=
  if s.isFetching = true then (s.formSchemaPromise, s)
  else
    let p := s.requests.length
    (some p,
      { isFetching := s.isFetching,
        formSchemaPromise := some p,
        requests := s.requests ++ [fetchHeader schema state] })

/-- Whether `actions.length > 0` holds in JS for the given `length` value
(lengths are numbers; any non-number compares false). -/
def jsGtZero : JsVal → Bool
  | .numV n => decide (0 < n)
  | _ => false

/-- Read `v.length`: arrays and strings answer their length, other
non-`undefined`/`null` values answer the own property of that name. -/
def jsGetLength (v : JsVal) : Except String JsVal :=
  match v with
  | JsVal.undef => throw "TypeError: cannot read length"
  | .null => throw "TypeError: cannot read length"
  | .arr xs => pure (.numV xs.length)
  | .strV s => pure (.numV s.length)
  | _ => pure (getOwnKey v "length")

/-- The body of the schema branch of the fetch success callback: build
`defaultData` (security token plus, if actions exist, a flag named after the
first action), create the submit endpoint from the schema record's declared
action URL and method, and dispatch `setSchema`. -/
def schemaBuildEffects (securityID formSchema : JsVal) : Except String (List StoreEffect) := do
  let defaultData : List (String × JsVal) := [("SecurityID", securityID)]
  let schemaV := getOwnKey formSchema "schema"
  let actions ← jsGet schemaV "actions"
  let len ← jsGetLength actions
  let defaultData2 ←
    if jsGtZero len then do
      let firstName ← jsGet (jsIndexNat actions 0) "name"
      pure (setKey defaultData (keyString firstName) (JsVal.numV 1))
    else pure defaultData
  let attrs ← jsGet schemaV "attributes"
  let url ← jsGet attrs "action"
  let method ← jsGet attrs "method"
  pure [.createEndpoint url method defaultData2, .setSchema formSchema]

/-- The schema half of the fetch success callback, guarded by
`typeof formSchema.id !== "undefined"`. -/
def schemaPartEffects (securityID formSchema : JsVal) : Except String (List StoreEffect) :=
  match getOwnKey formSchema "id" with
  | JsVal.undef => pure []
  | _ => schemaBuildEffects securityID formSchema

/-- The state half of the fetch success callback: dispatch `addForm` exactly
when `typeof formState.id !== "undefined"`. -/
def statePartEffects (formState : JsVal) : List StoreEffect :=
  match getOwnKey formState "id" with
  | JsVal.undef => []
  | _ => [.addForm formState]

/-- The fetch success callback (`then(json => ...)`): split the parsed
response into `formSchema = Object.assign({}, { id: json.id, schema:
json.schema })` and `formState = Object.assign({}, json.state)` and publish
each part to the store under its own id-defined guard. -/
def processSchemaResponse (securityID json : JsVal) : Except String (List StoreEffect) := do
  let jid ← jsGet json "id"
  let jschema ← jsGet json "schema"
  let stateVal ← jsGet json "state"
  let formSchema := JsVal.obj (assignEntries [] (JsVal.obj [("id", jid), ("schema", jschema)]))
  let formState := JsVal.obj (assignEntries [] stateVal)
  let schemaEffects ← schemaPartEffects securityID formSchema
  pure (schemaEffects ++ statePartEffects formState)

/-! #### Event handlers -/

/-- The default update action creator handed to custom handlers:
`this.props.formActions.updateField`. -/
def updateFieldAction : JsVal → JsVal → StoreEffect :=
  .updateField

/-- handleFieldUpdate(event, updates, fn): with a custom `fn`, call
`fn(this.getFormId(), this.props.formActions.updateField)` and dispatch
nothing directly; without one, dispatch the default update action with the
form id and the updates.  The change event itself is unused by this method. -/
def handleFieldUpdate (schemas : JsVal) (schemaUrl : String) (updates : JsVal)
    (fn : Option (JsVal → (JsVal → JsVal → StoreEffect) → List StoreEffect)) :
    Except String (List StoreEffect) :=
  match fn with
  | some f => do
      let formId ← getFormId schemas schemaUrl
      pure (f formId updateFieldAction)
  | none => do
      let formId ← getFormId schemas schemaUrl
      pure [updateFieldAction formId updates]

/-- Require an array (`.find`, `.map`, `.reduce` exist only on arrays). -/
def expectArr (v : JsVal) : Except String (List JsVal) :=
  match v with
  | .arr xs => pure xs
  | _ => throw "TypeError: not an array method"

/-- The `schemaFields.find(schemaField => schemaField.id === curr.id)` lookup
of handleSubmit. -/
def findSchemaField : List JsVal → JsVal → Except String (Option JsVal)
  | [], _ => pure none
  | sf :: rest, cid => do
      let sid ← jsGet sf "id"
      if jsStrictEq sid cid then pure (some sf) else findSchemaField rest cid

/-- The `reduce` callback of handleSubmit:
`Object.assign({}, prev, { [schemaField.name]: curr.value })`, the schema
field being found by the form field's id; a failed lookup is the source's
TypeError on reading `.name` of `undefined`. -/
def submitReduceStep (schemaFields : List JsVal) (prev : List (String × JsVal))
    (curr : JsVal) : Except String (List (String × JsVal)) := do
  let cid ← jsGet curr "id"
  let found ← findSchemaField schemaFields cid
  match found with
  | none => throw "TypeError: cannot read name"
  | some sf => do
      let nm ← jsGet sf "name"
      let v ← jsGet curr "value"
      pure (assignEntries (assignEntries [] (JsVal.obj prev))
              (JsVal.obj [(keyString nm, v)]))

/-- The `reduce` of handleSubmit, folding the form's field records into the
name-to-value payload starting from `{}`. -/
def computeFieldValues (schemaFields formFields : List JsVal) :
    Except String (List (String × JsVal)) :=
  formFields.foldlM (submitReduceStep schemaFields) []

/-- Stated from the specification, for comparison with `computeFieldValues`:
the submit payload as "a mapping from field name to current value, obtaining
each field's name by looking it up in the schema's field list by the field's
id", for schema fields given as (id, name) pairs and form fields given as
(id, value) pairs. -/
def specSubmitPayload (schemaPairs : List (Int × String)) (formPairs : List (Int × JsVal)) :
    List (String × JsVal) :=
  formPairs.foldl
    (fun acc q =>
      match schemaPairs.find? (fun p => p.1 == q.1) with
      | some p => setKey acc p.2 q.2
      | none => acc)
    []

/-- What handleSubmit does with the computed field values: hand them to a
caller-supplied submit handler together with the real-submission closure, or
suppress the native event and submit at once. -/
inductive SubmitOutcome where
  | deferred (fieldValues : List (String × JsVal))
  | submitted (fieldValues : List (String × JsVal))

/-- handleSubmit(event): read the schema's field list and the form state's
field list, compute the name-to-value payload, then defer to
`this.props.handleSubmit` when the caller supplied one and otherwise
`preventDefault` and submit immediately. -/
def handleSubmit (schemas form : JsVal) (schemaUrl : String) (hasCustomHandler : Bool) :
    Except String SubmitOutcome := do
  let schemaRecord ← jsGet schemas schemaUrl
  let schemaV ← jsGet schemaRecord "schema"
  let schemaFields ← expectArr (← jsGet schemaV "fields")
  let formId ← getFormId schemas schemaUrl
  let formRecord ← jsGet form (keyString formId)
  let formFields ← expectArr (← jsGet formRecord "fields")
  let fieldValues ← computeFieldValues schemaFields formFields
  pure (if hasCustomHandler then .deferred fieldValues else .submitted fieldValues)

/-! #### Mapping fields and actions to components -/

/-- A rendered child: React's `null` (renders nothing) or an element of a
registered component with its props.  A caller-supplied `createFn` may
produce either. -/
inductive Rendered where
  | nullElem
  | element (component : String) (props : JsVal)

/-- The injector registry (`lib/Injector`), an external collaborator:
resolution by explicit component name or by field data type, `none` when the
registry holds no component (the source's `null`). -/
structure Registry where
  getComponentByName : JsVal → Option String
  getComponentByDataType : JsVal → Option String

/-- An effectful `.map` over a JS array. -/
def mapEx {α β : Type} (f : α → Except String β) : List α → Except String (List β)
  | [] => pure []
  | x :: xs => do
      let y ← f x
      let ys ← mapEx f xs
      pure (y :: ys)

/-- The component resolution step of mapFieldsToComponents:
`field.component !== null ? getComponentByName(field.component)
: getComponentByDataType(field.type)`. -/
def resolveFieldComponent (reg : Registry) (field : JsVal) : Option String :=
  match getOwnKey field "component" with
  | .null => reg.getComponentByDataType (getOwnKey field "type")
  | c => reg.getComponentByName c

/-- The props every rendered form field receives: `Object.assign({}, field,
{ onChange: handleFieldUpdate })`. -/
def fieldPropsVal (field : JsVal) : JsVal :=
  JsVal.obj (assignEntries (assignEntries [] field)
    (JsVal.obj [("onChange", JsVal.func "handleFieldUpdate")]))

/-- The body of the mapFieldsToComponents map callback: resolve the
component, answer React `null` when resolution fails, and otherwise render
the component (through `createFn` when the caller supplied one) with the
field's data plus the `onChange` handler. -/
def mapFieldToComponent (reg : Registry) (createFn : Option (String → JsVal → Rendered))
    (field : JsVal) : Except String Rendered := do
  let comp ← jsGet field "component"
  let resolved ←
    match comp with
    | .null => do
        let ty ← jsGet field "type"
        pure (reg.getComponentByDataType ty)
    | c => pure (reg.getComponentByName c)
  match resolved with
  | none => pure Rendered.nullElem
  | some c =>
      pure (match createFn with
        | some f => f c (fieldPropsVal field)
        | none => Rendered.element c (fieldPropsVal field))

/-- mapFieldsToComponents(fields). -/
def mapFieldsToComponents (reg : Registry) (createFn : Option (String → JsVal → Rendered))
    (fields : List JsVal) : Except String (List Rendered) :=
  mapEx (mapFieldToComponent reg createFn) fields

/-- The switch of the mapActionsToComponents map callback: name-keyed
defaults for `action_save` and `action_cancel` (every property explicitly
present on the action overriding its default through `Object.assign`),
everything else passing through unchanged.  `form` is
`this.props.form[this.getFormId()]`; `deepFreeze` does not change values and
is not modelled. -/
def resolveActionProps (form action : JsVal) : Except String JsVal := do
  let name ← jsGet action "name"
  match name with
  | .strV "action_save" => do
      let title ← jsGet action "title"
      let loading ←
        match form with
        | JsVal.undef => pure (JsVal.boolV false)
        | _ => jsGet form "submitting"
      let defaults := JsVal.obj
        [("type", .strV "submit"), ("label", title), ("icon", .strV "save"),
         ("loading", loading), ("bootstrapButtonStyle", .strV "primary")]
      pure (JsVal.obj (assignEntries (assignEntries [] defaults) action))
  | .strV "action_cancel" => do
      let title ← jsGet action "title"
      let defaults := JsVal.obj [("type", .strV "button"), ("label", title)]
      pure (JsVal.obj (assignEntries (assignEntries [] defaults) action))
  | _ => pure action

/-- mapActionsToComponents(actions): resolve each action's props and render a
`FormAction` element (through `createFn` when supplied). -/
def mapActionsToComponents (createFn : Option (String → JsVal → Rendered))
    (form : JsVal) (actions : List JsVal) : Except String (List Rendered) :=
  mapEx
    (fun action => do
      let props ← resolveActionProps form action
      pure (match createFn with
        | some f => f "FormAction" props
        | none => Rendered.element "FormAction" props))
    actions

/-! #### Field-state merging and render -/

/-- The four-key object literal `{ data: state.data, messages:
state.messages, valid: state.valid, value: state.value }` built by
mergeFieldData (property reads throw on an `undefined`/`null` state). -/
def fieldStateSubset (state : JsVal) : Except String JsVal := do
  let d ← jsGet state "data"
  let m ← jsGet state "messages"
  let va ← jsGet state "valid"
  let ve ← jsGet state "value"
  pure (JsVal.obj [("data", d), ("messages", m), ("valid", va), ("value", ve)])

/-- The value of the four-key literal when the state record is readable:
`fieldStateSubset` specialised away from the error monad. -/
def fieldSubsetVal (state : JsVal) : JsVal :=
  JsVal.obj [("data", getOwnKey state "data"), ("messages", getOwnKey state "messages"),
             ("valid", getOwnKey state "valid"), ("value", getOwnKey state "value")]

/-- mergeFieldData(structure, state): `merge.recursive(true, structure,
{data, messages, valid, value})`.  Returns the merged record together with
the post-state of `structure` (the clone flag keeps it unmodified). -/
def mergeFieldData (structV state : JsVal) : Except String (JsVal × JsVal) := do
  let subset ← fieldStateSubset state
  pure (mergeRecursiveTwo true structV subset)

/-- The `formSchema.schema.fields.map((f, i) => this.mergeFieldData(f,
formState.fields[i]))` loop of render, with `i` threaded explicitly. -/
def mergeFieldsAt (stFields : JsVal) : Nat → List JsVal → Except String (List JsVal)
  | _, [] => pure []
  | i, f :: rest => do
      let m ← mergeFieldData f (jsIndexNat stFields i)
      let ms ← mergeFieldsAt stFields (i + 1) rest
      pure (m.1 :: ms)

/-- The props of the `<Form>` element render returns (the handler props,
which are functions, are omitted: they carry no data). -/
structure FormProps where
  actions : JsVal
  attributes : JsVal
  data : JsVal
  fields : JsVal
  formId : JsVal

/-- render(): nothing for a falsy form id or a falsy stored schema;
otherwise rename the `class`/`enctype` attributes, merge per-field state
into the structural fields when both are available (else use the structural
fields alone), and emit the `<Form>` props. -/
def render (schemas form : JsVal) (schemaUrl : String) : Except String (Option FormProps) := do
  let formId ← getFormId schemas schemaUrl
  if jsTruthy formId = false then pure none else do
    let formSchema ← getFormSchema schemas schemaUrl
    let formState ← jsGet form (keyString formId)
    if jsTruthy formSchema = false then pure none else do
      let schemaV ← jsGet formSchema "schema"
      let attrsV ← jsGet schemaV "attributes"
      let cls ← jsGet attrsV "class"
      let enc ← jsGet attrsV "enctype"
      let attributes := JsVal.obj (assignEntries (assignEntries [] attrsV)
        (JsVal.obj [("class", .null), ("className", cls), ("enctype", .null), ("encType", enc)]))
      let fieldData ←
        if jsTruthy schemaV && jsTruthy formState then do
          let stFields ← jsGet formState "fields"
          if jsTruthy stFields then do
            let sfs ← expectArr (← jsGet schemaV "fields")
            let merged ← mergeFieldsAt stFields 0 sfs
            pure (JsVal.arr merged)
          else jsGet schemaV "fields"
        else jsGet schemaV "fields"
      let actions ← jsGet schemaV "actions"
      let dataV ← jsGet schemaV "data"
      pure (some { actions := actions, attributes := attributes, data := dataV,
                   fields := fieldData, formId := formId })

/-! ### Entry-list lemmas -/

@[simp] theorem keysOf_nil : keysOf [] = [] := rfl

@[simp] theorem keysOf_cons (hd : String × JsVal) (tl : List (String × JsVal)) :
    keysOf (hd :: tl) = hd.1 :: keysOf tl := rfl

theorem lookupKey_eq_none_iff (l : List (String × JsVal)) (key : String) :
    lookupKey l key = none ↔ key ∉ keysOf l := by
  induction l with
  | nil => simp [lookupKey]
  | cons hd tl ih =>
      by_cases h : hd.1 = key
      · simp [lookupKey, h]
      · have h2 : ¬(key = hd.1) := fun hx => h hx.symm
        simp [lookupKey, h, ih, h2]

theorem lookupKey_setKey (l : List (String × JsVal)) (k key : String) (v : JsVal) :
    lookupKey (setKey l k v) key = if key = k then some v else lookupKey l key := by
  induction l with
  | nil =>
      by_cases h : key = k
      · simp [setKey, lookupKey, h]
      · have h2 : ¬(k = key) := fun hx => h hx.symm
        simp [setKey, lookupKey, h, h2]
  | cons hd tl ih =>
      by_cases h1 : hd.1 = k
      · by_cases h2 : key = k
        · simp [setKey, lookupKey, h1, h2, h1.trans h2.symm]
        · have h2a : ¬(k = key) := fun hx => h2 hx.symm
          have h3 : ¬(hd.1 = key) := fun hx => h2 (hx.symm.trans h1)
          simp [setKey, lookupKey, h1, h2, h2a, h3]
      · by_cases h2 : hd.1 = key
        · have h3 : ¬(key = k) := fun hx => h1 (h2.trans hx)
          simp [setKey, lookupKey, h1, h2, h3]
        · simp [setKey, lookupKey, h1, h2, ih]

theorem mem_keysOf_setKey (l : List (String × JsVal)) (k key : String) (v : JsVal) :
    key ∈ keysOf (setKey l k v) ↔ key = k ∨ key ∈ keysOf l := by
  induction l with
  | nil => simp [setKey]
  | cons hd tl ih =>
      by_cases h1 : hd.1 = k
      · subst h1
        simp [setKey]
      · simp [setKey, h1, ih]
        tauto

theorem nodup_keysOf_setKey (l : List (String × JsVal)) (k : String) (v : JsVal)
    (h : (keysOf l).Nodup) : (keysOf (setKey l k v)).Nodup := by
  induction l with
  | nil => simp [setKey]
  | cons hd tl ih =>
      rw [keysOf_cons, List.nodup_cons] at h
      by_cases h1 : hd.1 = k
      · rw [show setKey (hd :: tl) k v = (hd.1, v) :: tl from by simp [setKey, h1],
            keysOf_cons, List.nodup_cons]
        exact h
      · have hmem : hd.1 ∉ keysOf (setKey tl k v) := by
          rw [mem_keysOf_setKey]
          rintro (hx | hx)
          · exact h1 hx
          · exact h.1 hx
        rw [show setKey (hd :: tl) k v = hd :: setKey tl k v from by simp [setKey, h1],
            keysOf_cons, List.nodup_cons]
        exact ⟨hmem, ih h.2⟩

theorem setKey_of_not_mem (l : List (String × JsVal)) (k : String) (v : JsVal)
    (h : k ∉ keysOf l) : setKey l k v = l ++ [(k, v)] := by
  induction l with
  | nil => simp [setKey]
  | cons hd tl ih =>
      simp at h
      have h1 : ¬(hd.1 = k) := fun hx => h.1 hx.symm
      simp [setKey, h1, ih h.2]

theorem assignList_cons (base : List (String × JsVal)) (p : String × JsVal)
    (m : List (String × JsVal)) :
    assignList base (p :: m) = assignList (setKey base p.1 p.2) m := rfl

theorem lookupKey_assignList_of_none (base m : List (String × JsVal)) (key : String)
    (h : lookupKey m key = none) :
    lookupKey (assignList base m) key = lookupKey base key := by
  induction m generalizing base with
  | nil => rfl
  | cons hd tl ih =>
      by_cases h1 : hd.1 = key
      · simp [lookupKey, h1] at h
      · simp only [lookupKey, h1, if_false] at h
        rw [assignList_cons, ih _ h, lookupKey_setKey]
        have h2 : ¬(key = hd.1) := fun hx => h1 hx.symm
        simp [h2]

theorem lookupKey_assignList_of_some (base m : List (String × JsVal)) (key : String)
    (v : JsVal) (hnd : (keysOf m).Nodup) (h : lookupKey m key = some v) :
    lookupKey (assignList base m) key = some v := by
  induction m generalizing base with
  | nil => simp [lookupKey] at h
  | cons hd tl ih =>
      rw [keysOf_cons, List.nodup_cons] at hnd
      by_cases h1 : hd.1 = key
      · rw [show lookupKey (hd :: tl) key = some hd.2 from by simp [lookupKey, h1]] at h
        have hv : hd.2 = v := Option.some.inj h
        rw [assignList_cons,
            lookupKey_assignList_of_none _ _ _
              ((lookupKey_eq_none_iff tl key).2 (h1 ▸ hnd.1)),
            lookupKey_setKey]
        simp [h1, hv]
      · simp only [lookupKey, h1, if_false] at h
        exact assignList_cons _ _ _ ▸ ih _ hnd.2 h

theorem mem_keysOf_assignList (base m : List (String × JsVal)) (key : String) :
    key ∈ keysOf (assignList base m) ↔ key ∈ keysOf base ∨ key ∈ keysOf m := by
  induction m generalizing base with
  | nil => simp [assignList]
  | cons hd tl ih =>
      rw [assignList_cons, ih]
      simp [mem_keysOf_setKey]
      tauto

theorem assignList_of_disjoint (base m : List (String × JsVal))
    (hnd : (keysOf m).Nodup) (hdisj : ∀ key ∈ keysOf m, key ∉ keysOf base) :
    assignList base m = base ++ m := by
  induction m generalizing base with
  | nil => simp [assignList]
  | cons hd tl ih =>
      rw [keysOf_cons, List.nodup_cons] at hnd
      rw [assignList_cons, setKey_of_not_mem _ _ _ (hdisj hd.1 (by simp)),
          ih _ hnd.2]
      · simp
      · intro key hk
        have hne : ¬(key = hd.1) := fun hx => hnd.1 (hx ▸ hk)
        intro hmem
        rw [show keysOf (base ++ [(hd.1, hd.2)]) = keysOf base ++ [hd.1] from by
              simp [keysOf]] at hmem
        rcases List.mem_append.1 hmem with hx | hx
        · exact hdisj key (by simp [hk]) hx
        · exact hne (by simpa using hx)

theorem assignList_nil_eq (m : List (String × JsVal)) (hnd : (keysOf m).Nodup) :
    assignList [] m = m := by
  simpa using assignList_of_disjoint [] m hnd (by simp)

/-! ### Merge lemmas -/

theorem mergeRecursiveFn_of_not_obj (base e : JsVal) (h : isPlainObj base = false) :
    mergeRecursiveFn base e = e := by
  cases e <;> simp [mergeRecursiveFn, h]

theorem mergeRecursiveFn_undef (e : JsVal) : mergeRecursiveFn JsVal.undef e = e :=
  mergeRecursiveFn_of_not_obj _ _ rfl

theorem mergeItemEntries_cons (base : List (String × JsVal)) (k : String) (v : JsVal)
    (m : List (String × JsVal)) :
    mergeItemEntries base ((k, v) :: m) =
      mergeItemEntries (setKey base k (mergeRecursiveFn ((lookupKey base k).getD JsVal.undef) v)) m :=
  rfl

theorem lookupKey_mergeItemEntries_of_none (base m : List (String × JsVal)) (key : String)
    (h : lookupKey m key = none) :
    lookupKey (mergeItemEntries base m) key = lookupKey base key := by
  induction m generalizing base with
  | nil => rfl
  | cons hd tl ih =>
      obtain ⟨k0, v0⟩ := hd
      by_cases h1 : k0 = key
      · simp [lookupKey, h1] at h
      · simp only [lookupKey, h1, if_false] at h
        rw [mergeItemEntries_cons, ih _ h, lookupKey_setKey]
        have h2 : ¬(key = k0) := fun hx => h1 hx.symm
        simp [h2]

theorem lookupKey_mergeItemEntries_of_some (base m : List (String × JsVal)) (key : String)
    (v : JsVal) (hnd : (keysOf m).Nodup) (h : lookupKey m key = some v) :
    lookupKey (mergeItemEntries base m) key =
      some (mergeRecursiveFn ((lookupKey base key).getD JsVal.undef) v) := by
  induction m generalizing base with
  | nil => simp [lookupKey] at h
  | cons hd tl ih =>
      obtain ⟨k0, v0⟩ := hd
      rw [keysOf_cons, List.nodup_cons] at hnd
      by_cases h1 : k0 = key
      · rw [show lookupKey ((k0, v0) :: tl) key = some v0 from by simp [lookupKey, h1]] at h
        have hv : v0 = v := Option.some.inj h
        subst hv
        subst h1
        rw [mergeItemEntries_cons,
            lookupKey_mergeItemEntries_of_none _ _ _
              ((lookupKey_eq_none_iff tl k0).2 hnd.1),
            lookupKey_setKey]
        simp
      · simp only [lookupKey, h1, if_false] at h
        rw [mergeItemEntries_cons, ih _ hnd.2 h, lookupKey_setKey]
        have h2 : ¬(key = k0) := fun hx => h1 hx.symm
        simp [h2]

theorem mem_keysOf_mergeItemEntries (base m : List (String × JsVal)) (key : String) :
    key ∈ keysOf (mergeItemEntries base m) ↔ key ∈ keysOf base ∨ key ∈ keysOf m := by
  induction m generalizing base with
  | nil => simp [mergeItemEntries]
  | cons hd tl ih =>
      obtain ⟨k0, v0⟩ := hd
      rw [mergeItemEntries_cons, ih]
      simp [mem_keysOf_setKey]
      tauto

theorem mergeItemEntries_of_disjoint (base m : List (String × JsVal))
    (hnd : (keysOf m).Nodup) (hdisj : ∀ key ∈ keysOf m, key ∉ keysOf base) :
    mergeItemEntries base m = base ++ m := by
  induction m generalizing base with
  | nil => simp [mergeItemEntries]
  | cons hd tl ih =>
      obtain ⟨k0, v0⟩ := hd
      rw [keysOf_cons, List.nodup_cons] at hnd
      have hnone : lookupKey base k0 = none :=
        (lookupKey_eq_none_iff base k0).2 (hdisj k0 (by simp))
      rw [mergeItemEntries_cons, hnone]
      simp only [Option.getD_none, mergeRecursiveFn_undef]
      rw [setKey_of_not_mem _ _ _ (hdisj k0 (by simp)), ih _ hnd.2]
      · simp
      · intro key hk
        have hne : ¬(key = k0) := fun hx => hnd.1 (hx ▸ hk)
        intro hmem
        rw [show keysOf (base ++ [(k0, v0)]) = keysOf base ++ [k0] from by simp [keysOf]] at hmem
        rcases List.mem_append.1 hmem with hx | hx
        · exact hdisj key (by simp [hk]) hx
        · exact hne (by simpa using hx)

theorem mergeItemEntries_nil_eq (m : List (String × JsVal)) (hnd : (keysOf m).Nodup) :
    mergeItemEntries [] m = m := by
  simpa using mergeItemEntries_of_disjoint [] m hnd (by simp)

theorem mergeRecursiveTwo_clone_obj (es s4 : List (String × JsVal))
    (hnd : (keysOf es).Nodup) :
    mergeRecursiveTwo true (.obj es) (.obj s4) = (.obj (mergeItemEntries es s4), .obj es) := by
  simp [mergeRecursiveTwo, isPlainObj, objEntries, mergeItemEntries_nil_eq es hnd]

theorem keysOf_fieldSubsetVal (st : JsVal) :
    keysOf (objEntries (fieldSubsetVal st)) = ["data", "messages", "valid", "value"] := rfl

/-- The value-level characterisation of one merged field entry: key set,
untouched structural values, and the rule applied on the four state keys. -/
theorem merged_entry_spec (es : List (String × JsVal)) (st : JsVal)
    (hnd : (keysOf es).Nodup) :
    (∀ key, key ∈ keysOf (objEntries ((mergeRecursiveTwo true (.obj es) (fieldSubsetVal st)).1))
        ↔ key ∈ keysOf es ∨ key ∈ ["data", "messages", "valid", "value"])
    ∧ (∀ key, key ∈ keysOf es → key ∉ ["data", "messages", "valid", "value"] →
        getOwnKey ((mergeRecursiveTwo true (.obj es) (fieldSubsetVal st)).1) key
          = getOwnKey (.obj es) key)
    ∧ (∀ key, key ∈ ["data", "messages", "valid", "value"] →
        getOwnKey ((mergeRecursiveTwo true (.obj es) (fieldSubsetVal st)).1) key
          = mergeRecursiveFn (getOwnKey (.obj es) key) (getOwnKey st key)) := by
  have hs4 : fieldSubsetVal st = .obj
      [("data", getOwnKey st "data"), ("messages", getOwnKey st "messages"),
       ("valid", getOwnKey st "valid"), ("value", getOwnKey st "value")] := rfl
  rw [hs4, mergeRecursiveTwo_clone_obj es _ hnd]
  refine ⟨?_, ?_, ?_⟩
  · intro key
    exact mem_keysOf_mergeItemEntries es
      [("data", getOwnKey st "data"), ("messages", getOwnKey st "messages"),
       ("valid", getOwnKey st "valid"), ("value", getOwnKey st "value")] key
  · intro key hk hk4
    have hnone : lookupKey
        [("data", getOwnKey st "data"), ("messages", getOwnKey st "messages"),
         ("valid", getOwnKey st "valid"), ("value", getOwnKey st "value")] key = none := by
      rw [lookupKey_eq_none_iff]
      simpa [keysOf] using hk4
    show (lookupKey (mergeItemEntries es
        [("data", getOwnKey st "data"), ("messages", getOwnKey st "messages"),
         ("valid", getOwnKey st "valid"), ("value", getOwnKey st "value")]) key).getD JsVal.undef = _
    rw [lookupKey_mergeItemEntries_of_none _ _ _ hnone]
    rfl
  · intro key hk4
    have hnd4 : (keysOf
        [("data", getOwnKey st "data"), ("messages", getOwnKey st "messages"),
         ("valid", getOwnKey st "valid"), ("value", getOwnKey st "value")]).Nodup := by
      simp [keysOf]
    simp only [List.mem_cons, List.not_mem_nil, or_false] at hk4
    have step : ∀ k2 : String, lookupKey
        [("data", getOwnKey st "data"), ("messages", getOwnKey st "messages"),
         ("valid", getOwnKey st "valid"), ("value", getOwnKey st "value")] k2
          = some (getOwnKey st k2) →
        getOwnKey ((JsVal.obj (mergeItemEntries es
          [("data", getOwnKey st "data"), ("messages", getOwnKey st "messages"),
           ("valid", getOwnKey st "valid"), ("value", getOwnKey st "value")]), JsVal.obj es).1) k2
          = mergeRecursiveFn (getOwnKey (.obj es) k2) (getOwnKey st k2) := by
      intro k2 hlook
      show (lookupKey (mergeItemEntries es
          [("data", getOwnKey st "data"), ("messages", getOwnKey st "messages"),
           ("valid", getOwnKey st "valid"), ("value", getOwnKey st "value")]) k2).getD JsVal.undef = _
      rw [lookupKey_mergeItemEntries_of_some _ _ _ _ hnd4 hlook]
      rfl
    rcases hk4 with h | h | h | h <;> subst h <;>
      exact step _ (by simp [lookupKey])

/-! ### Field-merge pipeline lemmas -/

theorem fieldStateSubset_ok (st : JsVal) (h : isUndefOrNull st = false) :
    fieldStateSubset st = .ok (fieldSubsetVal st) := by
  simp [fieldStateSubset, fieldSubsetVal, jsGet, h]
  rfl

theorem mergeFieldData_ok (sv st : JsVal) (h : isUndefOrNull st = false) :
    mergeFieldData sv st = .ok (mergeRecursiveTwo true sv (fieldSubsetVal st)) := by
  rw [mergeFieldData, fieldStateSubset_ok st h]
  rfl

theorem mergeFieldsAt_ok (stF : List JsVal) (hst : ∀ v ∈ stF, isUndefOrNull v = false)
    (sfs : List JsVal) (i : Nat) (hlen : i + sfs.length ≤ stF.length) :
    ∃ out, mergeFieldsAt (.arr stF) i sfs = .ok out ∧ out.length = sfs.length ∧
      ∀ j sf st, sfs[j]? = some sf → stF[i + j]? = some st →
        out[j]? = some ((mergeRecursiveTwo true sf (fieldSubsetVal st)).1) := by
  induction sfs generalizing i with
  | nil => exact ⟨[], rfl, rfl, by simp⟩
  | cons f rest ih =>
      have hi : i < stF.length := by
        simp only [List.length_cons] at hlen
        omega
      have hidx : jsIndexNat (.arr stF) i = stF[i] := by
        simp [jsIndexNat, List.getD, List.getElem?_eq_getElem hi]
      have hstel : isUndefOrNull stF[i] = false := hst _ (List.getElem_mem hi)
      obtain ⟨out, hout, hlen2, hpt⟩ := ih (i + 1)
        (by simp only [List.length_cons] at hlen; omega)
      refine ⟨(mergeRecursiveTwo true f (fieldSubsetVal stF[i])).1 :: out, ?_, ?_, ?_⟩
      · simp only [mergeFieldsAt, hidx, mergeFieldData_ok _ _ hstel, hout, bind, Except.bind,
                   pure, Except.pure]
      · simp [hlen2]
      · intro j sf st hsf hst2
        cases j with
        | zero =>
            simp only [List.getElem?_cons_zero, Option.some.injEq] at hsf
            simp only [Nat.add_zero] at hst2
            rw [List.getElem?_eq_getElem hi] at hst2
            simp [← hsf, ← Option.some.inj hst2]
        | succ j2 =>
            simp only [List.getElem?_cons_succ] at hsf ⊢
            have harith : i + (j2 + 1) = (i + 1) + j2 := by omega
            rw [harith] at hst2
            exact hpt j2 sf st hsf hst2

/-! ### mapEx and fold lemmas -/

theorem mapEx_ok {α β : Type} (f : α → Except String β) (l : List α) (out : List β)
    (h : mapEx f l = .ok out) :
    out.length = l.length ∧
      ∀ (j : Nat) (x : α), l[j]? = some x → ∃ y, out[j]? = some y ∧ f x = .ok y := by
  induction l generalizing out with
  | nil =>
      obtain rfl : ([] : List β) = out := Except.ok.inj h
      simp
  | cons x xs ih =>
      rw [mapEx] at h
      cases hfx : f x with
      | error e =>
          rw [hfx] at h
          exact Except.noConfusion h
      | ok y =>
          rw [hfx] at h
          cases hrest : mapEx f xs with
          | error e =>
              rw [hrest] at h
              exact Except.noConfusion h
          | ok ys =>
              rw [hrest] at h
              obtain rfl : y :: ys = out := Except.ok.inj h
              obtain ⟨hl, hp⟩ := ih ys hrest
              refine ⟨by simp [hl], ?_⟩
              intro j z hz
              cases j with
              | zero =>
                  simp only [List.getElem?_cons_zero, Option.some.injEq] at hz
                  refine ⟨y, by simp, ?_⟩
                  rw [← hz]
                  exact hfx
              | succ j2 =>
                  simp only [List.getElem?_cons_succ] at hz ⊢
                  exact hp j2 z hz

/-! ### Lemmas for the submit payload -/

theorem jsStrictEq_num (a b : Int) : jsStrictEq (.numV a) (.numV b) = (a == b) := rfl

theorem findSchemaField_mapped (l : List (Int × String)) (i : Int) :
    findSchemaField (l.map (fun p => JsVal.obj [("id", .numV p.1), ("name", .strV p.2)]))
        (.numV i)
      = .ok ((l.find? (fun p => p.1 == i)).map
          (fun p => JsVal.obj [("id", .numV p.1), ("name", .strV p.2)])) := by
  induction l with
  | nil => rfl
  | cons p0 rest ih =>
      rw [List.map_cons, findSchemaField]
      have hget : jsGet (JsVal.obj [("id", JsVal.numV p0.1), ("name", JsVal.strV p0.2)]) "id"
          = .ok (.numV p0.1) := rfl
      rw [hget]
      cases hb : p0.1 == i with
      | true =>
          rw [@List.find?_cons_of_pos _ (fun p => p.1 == i) p0 rest hb]
          simp [bind, Except.bind, jsStrictEq_num, hb, pure, Except.pure]
      | false =>
          rw [@List.find?_cons_of_neg _ (fun p => p.1 == i) p0 rest (by simp [hb])]
          simpa [bind, Except.bind, jsStrictEq_num, hb] using ih

theorem submitReduceStep_mapped (sps : List (Int × String)) (q : Int × JsVal)
    (acc : List (String × JsVal)) (hacc : (keysOf acc).Nodup)
    (p1 : Int × String) (hfind : sps.find? (fun p => p.1 == q.1) = some p1) :
    submitReduceStep (sps.map (fun p => JsVal.obj [("id", .numV p.1), ("name", .strV p.2)]))
        acc (JsVal.obj [("id", .numV q.1), ("value", q.2)])
      = .ok (setKey acc p1.2 q.2) := by
  rw [submitReduceStep,
      show jsGet (JsVal.obj [("id", JsVal.numV q.1), ("value", q.2)]) "id"
        = .ok (.numV q.1) from rfl]
  simp only [bind, Except.bind]
  rw [findSchemaField_mapped sps q.1, hfind]
  simp only [Option.map, bind, Except.bind, jsGet, isUndefOrNull, getOwnKey, ownProps,
             lookupKey, keyString, pure, Except.pure]
  rw [show assignEntries [] (JsVal.obj acc) = assignList [] acc from rfl,
      assignList_nil_eq acc hacc]
  rfl

theorem computeFieldValues_from (sps : List (Int × String)) (fps : List (Int × JsVal))
    (hres : ∀ q ∈ fps, ∃ p ∈ sps, p.1 = q.1) (acc : List (String × JsVal))
    (hacc : (keysOf acc).Nodup) :
    (fps.map (fun q => JsVal.obj [("id", .numV q.1), ("value", q.2)])).foldlM
        (submitReduceStep (sps.map (fun p => JsVal.obj [("id", .numV p.1), ("name", .strV p.2)])))
        acc
      = .ok (fps.foldl
          (fun a q =>
            match sps.find? (fun p => p.1 == q.1) with
            | some p => setKey a p.2 q.2
            | none => a)
          acc) := by
  induction fps generalizing acc with
  | nil => rfl
  | cons q rest ih =>
      obtain ⟨p0, hp0, hpq⟩ := hres q (by simp)
      have hsome : (sps.find? (fun p => p.1 == q.1)).isSome := by
        rw [List.find?_isSome]
        exact ⟨p0, hp0, by simpa using hpq⟩
      obtain ⟨p1, hfind⟩ := Option.isSome_iff_exists.1 hsome
      rw [List.map_cons, List.foldlM_cons,
          submitReduceStep_mapped sps q acc hacc p1 hfind]
      simp only [bind, Except.bind]
      rw [ih (fun q2 hq2 => hres q2 (by simp [hq2])) _ (nodup_keysOf_setKey _ _ _ hacc),
          List.foldl_cons, hfind]

theorem computeFieldValues_mapped (sps : List (Int × String)) (fps : List (Int × JsVal))
    (hres : ∀ q ∈ fps, ∃ p ∈ sps, p.1 = q.1) :
    computeFieldValues
        (sps.map (fun p => JsVal.obj [("id", .numV p.1), ("name", .strV p.2)]))
        (fps.map (fun q => JsVal.obj [("id", .numV q.1), ("value", q.2)]))
      = .ok (specSubmitPayload sps fps) := by
  rw [computeFieldValues, computeFieldValues_from sps fps hres [] (by simp), specSubmitPayload]

/-! ### Lemmas for the fetch response effects -/

theorem schemaBuildEffects_shape (sec fs : JsVal) (l : List StoreEffect)
    (h : schemaBuildEffects sec fs = .ok l) :
    ∃ u m dd, l = [StoreEffect.createEndpoint u m dd, StoreEffect.setSchema fs] := by
  simp only [schemaBuildEffects, bind, Except.bind, pure, Except.pure] at h
  repeat' split at h
  all_goals
    first
      | exact Except.noConfusion h
      | (cases Except.ok.inj h; exact ⟨_, _, _, rfl⟩)

theorem schemaPartEffects_no_addForm (sec fs : JsVal) (l : List StoreEffect)
    (h : schemaPartEffects sec fs = .ok l) (r : JsVal) :
    StoreEffect.addForm r ∉ l := by
  rw [schemaPartEffects] at h
  split at h
  · cases Except.ok.inj h
    simp
  · obtain ⟨u, m, dd, rfl⟩ := schemaBuildEffects_shape sec fs l h
    simp

theorem schemaPartEffects_of_undef (sec fs : JsVal) (h : getOwnKey fs "id" = JsVal.undef) :
    schemaPartEffects sec fs = .ok [] := by
  rw [schemaPartEffects, h]
  exact rfl

theorem statePartEffects_no_setSchema (fs r : JsVal) :
    StoreEffect.setSchema r ∉ statePartEffects fs := by
  rw [statePartEffects]
  split <;> simp

theorem statePartEffects_mem_addForm (fs r : JsVal)
    (h : StoreEffect.addForm r ∈ statePartEffects fs) :
    r = fs ∧ getOwnKey fs "id" ≠ JsVal.undef := by
  cases hx : getOwnKey fs "id" <;> rw [statePartEffects, hx] at h <;>
    simp at h <;>
    exact ⟨h, fun hc => JsVal.noConfusion hc⟩

theorem processSchemaResponse_ok (sec json : JsVal) (effects : List StoreEffect)
    (h : processSchemaResponse sec json = .ok effects) :
    isUndefOrNull json = false ∧
    ∃ ls, schemaPartEffects sec
        (JsVal.obj [("id", getOwnKey json "id"), ("schema", getOwnKey json "schema")])
        = .ok ls ∧
      effects = ls ++ statePartEffects (JsVal.obj (assignEntries [] (getOwnKey json "state"))) := by
  cases hj : isUndefOrNull json with
  | true =>
      rw [processSchemaResponse, show jsGet json "id" = throw ("TypeError: cannot read id")
            from by rw [jsGet, hj]; rfl] at h
      exact Except.noConfusion h
  | false =>
      refine ⟨rfl, ?_⟩
      rw [processSchemaResponse] at h
      rw [show jsGet json "id" = .ok (getOwnKey json "id") from by rw [jsGet, hj]; rfl,
          show jsGet json "schema" = .ok (getOwnKey json "schema") from by rw [jsGet, hj]; rfl,
          show jsGet json "state" = .ok (getOwnKey json "state") from by rw [jsGet, hj]; rfl] at h
      simp only [bind, Except.bind] at h
      have hfs : JsVal.obj (assignEntries []
            (JsVal.obj [("id", getOwnKey json "id"), ("schema", getOwnKey json "schema")]))
          = JsVal.obj [("id", getOwnKey json "id"), ("schema", getOwnKey json "schema")] := rfl
      rw [hfs] at h
      cases hs : schemaPartEffects sec
          (JsVal.obj [("id", getOwnKey json "id"), ("schema", getOwnKey json "schema")]) with
      | error e => rw [hs] at h; exact Except.noConfusion h
      | ok ls =>
          rw [hs] at h
          exact ⟨ls, rfl, (Except.ok.inj h).symm⟩

/-! ### Small facts used by the claim theorems -/

theorem mergeRecursiveTwo_clone_snd (a b : JsVal) : (mergeRecursiveTwo true a b).2 = a := by
  simp [mergeRecursiveTwo]

theorem mergeRecursiveTwo_fst_obj (clone : Bool) (a b : JsVal) :
    ∃ entries, (mergeRecursiveTwo clone a b).1 = .obj entries :=
  ⟨_, rfl⟩

/-! ### Claim theorems -/

/-- Claim C1, counterexample.  The claim says a second fetch while the first
request is outstanding returns the identical pending promise and issues no
second request.  On the code as shipped, `isFetching` stays `false` (the
`setState` calls are commented out), so starting from the constructor state,
a second fetch call returns a different promise (promise 1 instead of the
still-pending promise 0) and the instance has issued two network requests. -/
theorem c1_counterexample :
    (fetchStep true true initialFetchState).1 = some 0 ∧
    (fetchStep true true (fetchStep true true initialFetchState).2).1 = some 1 ∧
    (fetchStep true true (fetchStep true true initialFetchState).2).1
      ≠ (fetchStep true true initialFetchState).1 ∧
    (fetchStep true true (fetchStep true true initialFetchState).2).2.requests.length = 2 := by
  decide

/-- Claim C1 (amended): fetch returns the stored pending promise without
issuing a request only when `this.state.isFetching` is `true`; the flag is
initialised `false` and left untouched by fetch on every path (the code that
would set it is disabled), so each call with `isFetching = false` issues one
more network request and returns a fresh promise. -/
theorem c1_amended (schema state : Bool) (s : FetchState) :
    (s.isFetching = true → fetchStep schema state s = (s.formSchemaPromise, s)) ∧
    (s.isFetching = false →
      (fetchStep schema state s).1 = some s.requests.length ∧
      (fetchStep schema state s).2.requests = s.requests ++ [fetchHeader schema state] ∧
      (fetchStep schema state s).2.formSchemaPromise = some s.requests.length ∧
      (fetchStep schema state s).2.isFetching = false) := by
  constructor
  · intro h
    simp [fetchStep, h]
  · intro h
    simp [fetchStep, h]

/-- Claim C1 (amended), witness: both branches at concrete states. -/
theorem c1_amended_witness :
    initialFetchState.isFetching = false ∧
    fetchStep true true
        { isFetching := true, formSchemaPromise := some 7, requests := ["schema,state"] }
      = (some 7,
        { isFetching := true, formSchemaPromise := some 7, requests := ["schema,state"] }) ∧
    (fetchStep true true initialFetchState).1 = some 0 := by
  refine ⟨rfl, (c1_amended true true _).1 rfl, ?_⟩
  have h := ((c1_amended true true initialFetchState).2 rfl).1
  simpa using h

/-- Claim C7: handleFieldUpdate(event, updates, fn) invokes a supplied `fn`
with the current form identifier and the default update action and dispatches
nothing itself; without `fn` it invokes the default update action directly
with the form identifier and the updates. -/
theorem c7_handleFieldUpdate (schemas : JsVal) (url : String) (updates fid : JsVal)
    (f : JsVal → (JsVal → JsVal → StoreEffect) → List StoreEffect)
    (hid : getFormId schemas url = .ok fid) :
    handleFieldUpdate schemas url updates (some f) = .ok (f fid updateFieldAction) ∧
    handleFieldUpdate schemas url updates none
      = .ok [StoreEffect.updateField fid updates] := by
  constructor <;>
    simp [handleFieldUpdate, hid, bind, Except.bind, pure, Except.pure, updateFieldAction]

/-- Claim C7, witness: a concrete custom handler receives the form id and
the default action; the default path dispatches the update itself. -/
theorem c7_witness :
    getFormId (JsVal.obj []) "u" = .ok JsVal.null ∧
    handleFieldUpdate (JsVal.obj []) "u" (JsVal.obj [("id", JsVal.numV 3)])
        (some (fun fid act => [act fid (JsVal.strV "custom")]))
      = .ok [StoreEffect.updateField JsVal.null (JsVal.strV "custom")] ∧
    handleFieldUpdate (JsVal.obj []) "u" (JsVal.obj [("id", JsVal.numV 3)]) none
      = .ok [StoreEffect.updateField JsVal.null (JsVal.obj [("id", JsVal.numV 3)])] := by
  have hid : getFormId (JsVal.obj []) "u" = .ok JsVal.null := by
    simp [getFormId, getFormSchema, jsGet, isUndefOrNull, getOwnKey, ownProps, lookupKey,
          jsTruthy, bind, Except.bind, pure, Except.pure]
  obtain ⟨h1, h2⟩ := c7_handleFieldUpdate (JsVal.obj []) "u" (JsVal.obj [("id", JsVal.numV 3)])
    JsVal.null (fun fid act => [act fid (JsVal.strV "custom")]) hid
  exact ⟨hid, h1, h2⟩

/-- Claim C8: when the schemas store holds nothing for the configured URL
(the lookup yields `undefined`), or holds a record without an id, render
returns React `null` (nothing) instead of raising an error. -/
theorem c8_render_nothing (schemas form : JsVal) (url : String) (s : JsVal)
    (hs : jsGet schemas url = .ok s)
    (h : s = JsVal.undef ∨ getOwnKey s "id" = JsVal.undef) :
    render schemas form url = .ok none := by
  cases htr : jsTruthy s with
  | false =>
      have hid : getFormId schemas url = .ok .null := by
        simp only [getFormId, getFormSchema, hs, bind, Except.bind]
        simp [htr, pure, Except.pure]
      simp [render, hid, bind, Except.bind, jsTruthy, pure, Except.pure]
  | true =>
      have hnn : isUndefOrNull s = false := by
        cases s <;> first | rfl | (exfalso; simp [jsTruthy] at htr)
      have hsid : getOwnKey s "id" = JsVal.undef := by
        rcases h with rfl | h2
        · exfalso
          simp [jsTruthy] at htr
        · exact h2
      have hid : getFormId schemas url = .ok JsVal.undef := by
        simp only [getFormId, getFormSchema, hs, bind, Except.bind]
        simp [htr, jsGet, hnn, hsid]
        rfl
      simp [render, hid, bind, Except.bind, jsTruthy, pure, Except.pure]

/-- Claim C8, witness: an empty schemas store renders nothing. -/
theorem c8_witness :
    jsGet (JsVal.obj []) "u" = .ok JsVal.undef ∧
    render (JsVal.obj []) (JsVal.obj []) "u" = .ok none :=
  ⟨rfl, c8_render_nothing (JsVal.obj []) (JsVal.obj []) "u" JsVal.undef rfl (Or.inl rfl)⟩

/-- Claim C9: mergeFieldData builds a fresh object record and, because the
merge runs in clone mode, leaves the structural argument unmodified (the
state argument is only read). -/
theorem c9_mergeFieldData_pure (sv st r post : JsVal)
    (h : mergeFieldData sv st = .ok (r, post)) :
    post = sv ∧ ∃ entries, r = .obj entries := by
  cases hst : isUndefOrNull st with
  | true =>
      have hsub : fieldStateSubset st = .error ("TypeError: cannot read " ++ "data") := by
        rw [fieldStateSubset,
            show jsGet st "data" = .error ("TypeError: cannot read " ++ "data") from by
              rw [jsGet, hst]; rfl]
        rfl
      rw [mergeFieldData, hsub] at h
      exact Except.noConfusion h
  | false =>
      rw [mergeFieldData_ok sv st hst] at h
      have hp := Except.ok.inj h
      constructor
      · have h2 := congrArg Prod.snd hp
        rw [mergeRecursiveTwo_clone_snd] at h2
        exact h2.symm
      · obtain ⟨es, hes⟩ := mergeRecursiveTwo_fst_obj true sv (fieldSubsetVal st)
        have h1 : (mergeRecursiveTwo true sv (fieldSubsetVal st)).1 = r :=
          congrArg Prod.fst hp
        exact ⟨es, h1.symm.trans hes⟩

/-- Claim C9, witness: a concrete merge leaves the structural record intact
and yields a fresh object. -/
theorem c9_witness :
    ∃ r post, mergeFieldData (JsVal.obj [("a", JsVal.numV 1)]) (JsVal.obj []) = .ok (r, post) ∧
      post = JsVal.obj [("a", JsVal.numV 1)] ∧ ∃ entries, r = .obj entries := by
  have hok : mergeFieldData (JsVal.obj [("a", JsVal.numV 1)]) (JsVal.obj [])
      = .ok (JsVal.obj [("a", JsVal.numV 1), ("data", JsVal.undef), ("messages", JsVal.undef),
          ("valid", JsVal.undef), ("value", JsVal.undef)], JsVal.obj [("a", JsVal.numV 1)]) := by
    simp [mergeFieldData, fieldStateSubset, jsGet, isUndefOrNull, getOwnKey, ownProps,
          lookupKey, mergeRecursiveTwo, mergeItemEntries, mergeRecursiveFn, mergeObjEntries,
          isPlainObj, setObjKey, setKey, objEntries, bind, Except.bind, pure, Except.pure]
  obtain ⟨h1, h2⟩ := c9_mergeFieldData_pure _ _ _ _ hok
  exact ⟨_, _, hok, h1, h2⟩

/-- Evaluation of the map callback on a readable field: the rendered result
is decided by the resolved component. -/
theorem mapFieldToComponent_eq (reg : Registry) (createFn : Option (String → JsVal → Rendered))
    (field : JsVal) (h : isUndefOrNull field = false) :
    mapFieldToComponent reg createFn field
      = .ok (match resolveFieldComponent reg field with
          | none => Rendered.nullElem
          | some c =>
              match createFn with
              | some f => f c (fieldPropsVal field)
              | none => Rendered.element c (fieldPropsVal field)) := by
  rw [mapFieldToComponent,
      show jsGet field "component" = .ok (getOwnKey field "component") from by rw [jsGet, h]; rfl]
  simp only [bind, Except.bind]
  split
  next heq =>
    rw [show jsGet field "type" = .ok (getOwnKey field "type") from by rw [jsGet, h]; rfl,
        resolveFieldComponent, heq]
    simp only [bind, Except.bind]
    cases reg.getComponentByDataType (getOwnKey field "type") <;> rfl
  next c heq =>
    have hmain : reg.getComponentByName (getOwnKey field "component")
        = resolveFieldComponent reg field := by
      rw [resolveFieldComponent]
      split
      next heq2 => exact absurd heq2 heq
      next => rfl
    rw [← hmain]
    cases reg.getComponentByName (getOwnKey field "component") <;> rfl

/-- Claim C5: a field's renderable component is resolved by the explicit
component entry when it is present (non-null) and by the field's data type
when the component entry is `null`; when the registry yields no component
the field renders as React `null` — silently, with no error raised. -/
theorem c5_resolution_and_silent_omission (reg : Registry)
    (createFn : Option (String → JsVal → Rendered)) (field : JsVal)
    (h : isUndefOrNull field = false) :
    (getOwnKey field "component" = JsVal.null →
        resolveFieldComponent reg field
          = reg.getComponentByDataType (getOwnKey field "type")) ∧
    (getOwnKey field "component" ≠ JsVal.null →
        resolveFieldComponent reg field
          = reg.getComponentByName (getOwnKey field "component")) ∧
    (resolveFieldComponent reg field = none →
        mapFieldToComponent reg createFn field = .ok Rendered.nullElem) ∧
    (∀ c, resolveFieldComponent reg field = some c →
        mapFieldToComponent reg createFn field
          = .ok (match createFn with
              | some f => f c (fieldPropsVal field)
              | none => Rendered.element c (fieldPropsVal field))) := by
  refine ⟨?_, ?_, ?_, ?_⟩
  · intro hc
    rw [resolveFieldComponent, hc]
  · intro hc
    rw [resolveFieldComponent]
    cases hcv : getOwnKey field "component" <;> first | (exact absurd hcv hc) | rfl
  · intro hres
    rw [mapFieldToComponent_eq reg createFn field h, hres]
  · intro c hres
    rw [mapFieldToComponent_eq reg createFn field h, hres]

/-- Claim C5, witness: a registry with no data-type components silently
renders nothing for a field whose component entry is `null`. -/
theorem c5_witness :
    resolveFieldComponent
        { getComponentByName := fun v =>
            match v with
            | JsVal.strV "TextField" => some "TextField"
            | _ => none,
          getComponentByDataType := fun _ => none }
        (JsVal.obj [("component", JsVal.null), ("type", JsVal.strV "text")]) = none ∧
    mapFieldToComponent
        { getComponentByName := fun v =>
            match v with
            | JsVal.strV "TextField" => some "TextField"
            | _ => none,
          getComponentByDataType := fun _ => none }
        none (JsVal.obj [("component", JsVal.null), ("type", JsVal.strV "text")])
      = .ok Rendered.nullElem := by
  refine ⟨rfl, ?_⟩
  exact (c5_resolution_and_silent_omission
    { getComponentByName := fun v =>
        match v with
        | JsVal.strV "TextField" => some "TextField"
        | _ => none,
      getComponentByDataType := fun _ => none }
    none (JsVal.obj [("component", JsVal.null), ("type", JsVal.strV "text")]) rfl).2.2.1 rfl

/-- Claim C10: mapFieldsToComponents preserves the length and positions of
its input; a field whose component cannot be resolved contributes a `null`
placeholder at its own position rather than being removed. -/
theorem c10_mapFields_positions (reg : Registry)
    (createFn : Option (String → JsVal → Rendered)) (fields : List JsVal)
    (out : List Rendered) (hok : mapFieldsToComponents reg createFn fields = .ok out) :
    out.length = fields.length ∧
    ∀ (j : Nat) (f : JsVal), fields[j]? = some f →
      ∃ r, out[j]? = some r ∧ mapFieldToComponent reg createFn f = .ok r ∧
        (resolveFieldComponent reg f = none → r = Rendered.nullElem) := by
  obtain ⟨hl, hp⟩ := mapEx_ok _ _ _ hok
  refine ⟨hl, ?_⟩
  intro j f hf
  obtain ⟨r, hr1, hr2⟩ := hp j f hf
  refine ⟨r, hr1, hr2, ?_⟩
  intro hres
  cases hnn : isUndefOrNull f with
  | true =>
      have hthrow : mapFieldToComponent reg createFn f
          = .error ("TypeError: cannot read " ++ "component") := by
        rw [mapFieldToComponent,
            show jsGet f "component" = .error ("TypeError: cannot read " ++ "component") from by
              rw [jsGet, hnn]; rfl]
        rfl
      rw [hthrow] at hr2
      exact Except.noConfusion hr2
  | false =>
      rw [mapFieldToComponent_eq reg createFn f hnn, hres] at hr2
      exact (Except.ok.inj hr2).symm

/-- Claim C10, witness: of two fields, the second is unresolvable and maps
to a `null` placeholder at index 1 while the first keeps index 0; the output
length equals the input length. -/
theorem c10_witness :
    ∃ out,
      mapFieldsToComponents
        { getComponentByName := fun v =>
            match v with
            | JsVal.strV "TextField" => some "TextField"
            | _ => none,
          getComponentByDataType := fun _ => none }
        none
        [JsVal.obj [("component", JsVal.strV "TextField")],
         JsVal.obj [("component", JsVal.null), ("type", JsVal.strV "x")]] = .ok out ∧
      out.length = 2 ∧ out[1]? = some Rendered.nullElem := by
  have hok : mapFieldsToComponents
      { getComponentByName := fun v =>
          match v with
          | JsVal.strV "TextField" => some "TextField"
          | _ => none,
        getComponentByDataType := fun _ => none }
      none
      [JsVal.obj [("component", JsVal.strV "TextField")],
       JsVal.obj [("component", JsVal.null), ("type", JsVal.strV "x")]]
      = .ok [Rendered.element "TextField"
               (fieldPropsVal (JsVal.obj [("component", JsVal.strV "TextField")])),
             Rendered.nullElem] := by
    simp [mapFieldsToComponents, mapEx, mapFieldToComponent, jsGet, isUndefOrNull,
          getOwnKey, ownProps, lookupKey, bind, Except.bind, pure, Except.pure]
  obtain ⟨hl, hp⟩ := c10_mapFields_positions _ _ _ _ hok
  refine ⟨_, hok, hl.trans rfl, ?_⟩
  obtain ⟨r, hr1, _, himp⟩ := hp 1 (JsVal.obj [("component", JsVal.null), ("type", JsVal.strV "x")])
    (by simp)
  rw [hr1, himp rfl]

/-- Claim C6: when the fetch response's top-level id is `undefined` no
set-schema action reaches the store, and the add-form action is dispatched
only when the state record carries a defined id. -/
theorem c6_dispatch_guards (sec json : JsVal) (effects : List StoreEffect)
    (hok : processSchemaResponse sec json = .ok effects) :
    (jsGet json "id" = .ok JsVal.undef → ∀ r, StoreEffect.setSchema r ∉ effects) ∧
    (∀ r, StoreEffect.addForm r ∈ effects → getOwnKey r "id" ≠ JsVal.undef) := by
  obtain ⟨hj, ls, hls, heff⟩ := processSchemaResponse_ok sec json effects hok
  constructor
  · intro hid r
    have hid2 : getOwnKey json "id" = JsVal.undef :=
      Except.ok.inj ((show Except.ok (getOwnKey json "id") = jsGet json "id" from by
        rw [jsGet, hj]; rfl).trans hid)
    have hls2 : schemaPartEffects sec
        (JsVal.obj [("id", getOwnKey json "id"), ("schema", getOwnKey json "schema")])
        = .ok [] :=
      schemaPartEffects_of_undef _ _ (by
        rw [show getOwnKey (JsVal.obj [("id", getOwnKey json "id"),
              ("schema", getOwnKey json "schema")]) "id" = getOwnKey json "id" from rfl, hid2])
    rw [hls2] at hls
    obtain rfl : ([] : List StoreEffect) = ls := Except.ok.inj hls
    rw [heff]
    simpa using statePartEffects_no_setSchema
      (JsVal.obj (assignEntries [] (getOwnKey json "state"))) r
  · intro r hr
    rw [heff] at hr
    rcases List.mem_append.1 hr with hx | hx
    · exact absurd hx (schemaPartEffects_no_addForm _ _ _ hls r)
    · obtain ⟨rfl, hne⟩ := statePartEffects_mem_addForm _ r hx
      exact hne

/-- Claim C6, witness: a response with no top-level id but a state record
with id 1 dispatches only add-form; the add-form record's id is defined. -/
theorem c6_witness :
    processSchemaResponse JsVal.undef (JsVal.obj [("state", JsVal.obj [("id", JsVal.numV 1)])])
      = .ok [StoreEffect.addForm (JsVal.obj [("id", JsVal.numV 1)])] ∧
    jsGet (JsVal.obj [("state", JsVal.obj [("id", JsVal.numV 1)])]) "id" = .ok JsVal.undef ∧
    (∀ r, StoreEffect.setSchema r
        ∉ [StoreEffect.addForm (JsVal.obj [("id", JsVal.numV 1)])]) ∧
    getOwnKey (JsVal.obj [("id", JsVal.numV 1)]) "id" ≠ JsVal.undef := by
  have hok : processSchemaResponse JsVal.undef
      (JsVal.obj [("state", JsVal.obj [("id", JsVal.numV 1)])])
      = .ok [StoreEffect.addForm (JsVal.obj [("id", JsVal.numV 1)])] := rfl
  obtain ⟨h1, h2⟩ := c6_dispatch_guards JsVal.undef
    (JsVal.obj [("state", JsVal.obj [("id", JsVal.numV 1)])]) _ hok
  exact ⟨hok, rfl, h1 rfl, h2 (JsVal.obj [("id", JsVal.numV 1)]) (by simp)⟩

/-- Claim C3: handleSubmit computes the submit payload as a mapping from
field name to current value, resolving each field's name by looking its id
up in the schema's field list, and hands it to the custom submit handler
when one is supplied or submits immediately otherwise. -/
theorem c3_handleSubmit_payload (url : String) (fid : JsVal)
    (schemaPairs : List (Int × String)) (formPairs : List (Int × JsVal))
    (hasCustomHandler : Bool)
    (hres : ∀ q ∈ formPairs, ∃ p ∈ schemaPairs, p.1 = q.1) :
    handleSubmit
        (JsVal.obj [(url, JsVal.obj [("id", fid), ("schema", JsVal.obj
          [("fields", JsVal.arr (schemaPairs.map (fun p =>
              JsVal.obj [("id", .numV p.1), ("name", .strV p.2)])))])])])
        (JsVal.obj [(keyString fid, JsVal.obj [("fields", JsVal.arr (formPairs.map (fun q =>
            JsVal.obj [("id", .numV q.1), ("value", q.2)])))])])
        url hasCustomHandler
      = .ok (if hasCustomHandler then
              SubmitOutcome.deferred (specSubmitPayload schemaPairs formPairs)
            else SubmitOutcome.submitted (specSubmitPayload schemaPairs formPairs)) := by
  have h1 : jsGet (JsVal.obj [(url, JsVal.obj [("id", fid), ("schema", JsVal.obj
        [("fields", JsVal.arr (schemaPairs.map (fun p =>
            JsVal.obj [("id", .numV p.1), ("name", .strV p.2)])))])])]) url
      = .ok (JsVal.obj [("id", fid), ("schema", JsVal.obj
        [("fields", JsVal.arr (schemaPairs.map (fun p =>
            JsVal.obj [("id", .numV p.1), ("name", .strV p.2)])))])]) := by
    simp [jsGet, isUndefOrNull, getOwnKey, ownProps, lookupKey]
    rfl
  have h2 : jsGet (JsVal.obj [(keyString fid, JsVal.obj [("fields",
        JsVal.arr (formPairs.map (fun q =>
          JsVal.obj [("id", .numV q.1), ("value", q.2)])))])]) (keyString fid)
      = .ok (JsVal.obj [("fields", JsVal.arr (formPairs.map (fun q =>
          JsVal.obj [("id", .numV q.1), ("value", q.2)])))]) := by
    simp [jsGet, isUndefOrNull, getOwnKey, ownProps, lookupKey]
    rfl
  rw [handleSubmit, h1]
  simp only [bind, Except.bind, pure, Except.pure]
  rw [show jsGet (JsVal.obj [("id", fid), ("schema", JsVal.obj
        [("fields", JsVal.arr (schemaPairs.map (fun p =>
            JsVal.obj [("id", .numV p.1), ("name", .strV p.2)])))])]) "schema"
      = .ok (JsVal.obj [("fields", JsVal.arr (schemaPairs.map (fun p =>
          JsVal.obj [("id", .numV p.1), ("name", .strV p.2)])))]) from rfl]
  simp only [bind, Except.bind, pure, Except.pure]
  rw [show jsGet (JsVal.obj [("fields", JsVal.arr (schemaPairs.map (fun p =>
        JsVal.obj [("id", .numV p.1), ("name", .strV p.2)])))]) "fields"
      = .ok (JsVal.arr (schemaPairs.map (fun p =>
          JsVal.obj [("id", .numV p.1), ("name", .strV p.2)]))) from rfl]
  simp only [bind, Except.bind, pure, Except.pure, expectArr]
  rw [show getFormId (JsVal.obj [(url, JsVal.obj [("id", fid), ("schema", JsVal.obj
        [("fields", JsVal.arr (schemaPairs.map (fun p =>
            JsVal.obj [("id", .numV p.1), ("name", .strV p.2)])))])])]) url
      = .ok fid from by
    simp only [getFormId, getFormSchema, h1, bind, Except.bind, jsTruthy]
    rfl]
  simp only [bind, Except.bind, pure, Except.pure]
  rw [h2]
  simp only [bind, Except.bind, pure, Except.pure]
  rw [show jsGet (JsVal.obj [("fields", JsVal.arr (formPairs.map (fun q =>
        JsVal.obj [("id", .numV q.1), ("value", q.2)])))]) "fields"
      = .ok (JsVal.arr (formPairs.map (fun q =>
          JsVal.obj [("id", .numV q.1), ("value", q.2)]))) from rfl]
  simp only [bind, Except.bind, pure, Except.pure, expectArr]
  rw [computeFieldValues_mapped schemaPairs formPairs hres]

/-- Claim C3, witness: the claim's concrete example — schema fields with
ids 1 and 2 named Title and Content, values Hello and World — yields the
payload mapping Title to Hello and Content to World. -/
theorem c3_witness :
    jsTruthy (JsVal.strV "f") = true ∧
    handleSubmit
        (JsVal.obj [("u", JsVal.obj [("id", JsVal.strV "f"), ("schema", JsVal.obj
          [("fields", JsVal.arr
            [JsVal.obj [("id", JsVal.numV 1), ("name", JsVal.strV "Title")],
             JsVal.obj [("id", JsVal.numV 2), ("name", JsVal.strV "Content")]])])])])
        (JsVal.obj [("f", JsVal.obj [("fields", JsVal.arr
            [JsVal.obj [("id", JsVal.numV 1), ("value", JsVal.strV "Hello")],
             JsVal.obj [("id", JsVal.numV 2), ("value", JsVal.strV "World")]])])])
        "u" false
      = .ok (SubmitOutcome.submitted
          [("Title", JsVal.strV "Hello"), ("Content", JsVal.strV "World")]) := by
  refine ⟨rfl, ?_⟩
  have h := c3_handleSubmit_payload "u" (JsVal.strV "f") [(1, "Title"), (2, "Content")]
    [(1, JsVal.strV "Hello"), (2, JsVal.strV "World")] false (by decide)
  rw [show specSubmitPayload [(1, "Title"), (2, "Content")]
        [(1, JsVal.strV "Hello"), (2, JsVal.strV "World")]
      = [("Title", JsVal.strV "Hello"), ("Content", JsVal.strV "World")] from rfl] at h
  simpa [keyString] using h

theorem getOwnKey_obj (l : List (String × JsVal)) (key : String) :
    getOwnKey (JsVal.obj l) key = (lookupKey l key).getD JsVal.undef := rfl

theorem objEntries_obj (l : List (String × JsVal)) : objEntries (JsVal.obj l) = l := rfl

/-- Claim C4: mapActionsToComponents applies name-keyed defaults.  An
action named action_save resolves to type submit, label from its title,
icon save, a loading flag derived from the form's submitting state and the
primary button style; an action named action_cancel resolves to type button
and label from its title with no icon default; explicitly present
properties always override their defaults, and any other action passes
through unchanged. -/
theorem c4_action_defaults (form : JsVal) (entries : List (String × JsVal)) (props : JsVal)
    (hnd : (keysOf entries).Nodup)
    (hok : resolveActionProps form (JsVal.obj entries) = .ok props) :
    (lookupKey entries "name" = some (JsVal.strV "action_save") →
      (∀ k v, lookupKey entries k = some v → getOwnKey props k = v) ∧
      (lookupKey entries "type" = none → getOwnKey props "type" = JsVal.strV "submit") ∧
      (lookupKey entries "label" = none →
          getOwnKey props "label" = getOwnKey (JsVal.obj entries) "title") ∧
      (lookupKey entries "icon" = none → getOwnKey props "icon" = JsVal.strV "save") ∧
      (lookupKey entries "loading" = none → form = JsVal.undef →
          getOwnKey props "loading" = JsVal.boolV false) ∧
      (lookupKey entries "loading" = none → isUndefOrNull form = false →
          getOwnKey props "loading" = getOwnKey form "submitting") ∧
      (lookupKey entries "bootstrapButtonStyle" = none →
          getOwnKey props "bootstrapButtonStyle" = JsVal.strV "primary")) ∧
    (lookupKey entries "name" = some (JsVal.strV "action_cancel") →
      (∀ k v, lookupKey entries k = some v → getOwnKey props k = v) ∧
      (lookupKey entries "type" = none → getOwnKey props "type" = JsVal.strV "button") ∧
      (lookupKey entries "label" = none →
          getOwnKey props "label" = getOwnKey (JsVal.obj entries) "title") ∧
      (("icon" ∈ keysOf (objEntries props)) ↔ "icon" ∈ keysOf entries)) ∧
    (∀ nm, lookupKey entries "name" = some nm → nm ≠ JsVal.strV "action_save" →
        nm ≠ JsVal.strV "action_cancel" → props = JsVal.obj entries) ∧
    (lookupKey entries "name" = none → props = JsVal.obj entries) := by
  refine ⟨?_, ?_, ?_, ?_⟩
  · intro hname
    have hjn : jsGet (JsVal.obj entries) "name" = .ok (JsVal.strV "action_save") := by
      rw [jsGet]
      simp [isUndefOrNull, getOwnKey, ownProps, hname]
      rfl
    rw [resolveActionProps, hjn] at hok
    simp only [bind, Except.bind, pure, Except.pure] at hok
    rw [show jsGet (JsVal.obj entries) "title"
        = .ok (getOwnKey (JsVal.obj entries) "title") from rfl] at hok
    simp only [bind, Except.bind, pure, Except.pure] at hok
    have main : ∀ lv : JsVal,
        props = JsVal.obj (assignList (assignList []
          [("type", JsVal.strV "submit"), ("label", getOwnKey (JsVal.obj entries) "title"),
           ("icon", JsVal.strV "save"), ("loading", lv),
           ("bootstrapButtonStyle", JsVal.strV "primary")]) entries) →
        (∀ k v, lookupKey entries k = some v → getOwnKey props k = v) ∧
        (lookupKey entries "type" = none → getOwnKey props "type" = JsVal.strV "submit") ∧
        (lookupKey entries "label" = none →
            getOwnKey props "label" = getOwnKey (JsVal.obj entries) "title") ∧
        (lookupKey entries "icon" = none → getOwnKey props "icon" = JsVal.strV "save") ∧
        (lookupKey entries "loading" = none → getOwnKey props "loading" = lv) ∧
        (lookupKey entries "bootstrapButtonStyle" = none →
            getOwnKey props "bootstrapButtonStyle" = JsVal.strV "primary") := by
      intro lv hp
      subst hp
      rw [assignList_nil_eq _ (by simp [keysOf])]
      refine ⟨?_, ?_, ?_, ?_, ?_, ?_⟩
      · intro k v hkv
        rw [getOwnKey_obj, lookupKey_assignList_of_some _ _ _ _ hnd hkv]
        rfl
      · intro hn
        rw [getOwnKey_obj, lookupKey_assignList_of_none _ _ _ hn]
        rfl
      · intro hn
        rw [getOwnKey_obj, lookupKey_assignList_of_none _ _ _ hn]
        rfl
      · intro hn
        rw [getOwnKey_obj, lookupKey_assignList_of_none _ _ _ hn]
        rfl
      · intro hn
        rw [getOwnKey_obj, lookupKey_assignList_of_none _ _ _ hn]
        rfl
      · intro hn
        rw [getOwnKey_obj, lookupKey_assignList_of_none _ _ _ hn]
        rfl
    split at hok
    next heq =>
      have hp := (Except.ok.inj hok).symm
      obtain ⟨m1, m2, m3, m4, m5, m6⟩ := main (JsVal.boolV false) hp
      refine ⟨m1, m2, m3, m4, fun hn _ => m5 hn, ?_, m6⟩
      intro hn hform
      simp [isUndefOrNull] at hform
    next x heq =>
      split at hok
      next hveq => exact Except.noConfusion hok
      next v hveq =>
        have hp := (Except.ok.inj hok).symm
        obtain ⟨m1, m2, m3, m4, m5, m6⟩ := main v hp
        refine ⟨m1, m2, m3, m4, ?_, ?_, m6⟩
        · intro hn hfu
          exact absurd hfu heq
        · intro hn hform
          rw [jsGet, hform] at hveq
          obtain rfl : getOwnKey form "submitting" = v := Except.ok.inj hveq
          exact m5 hn
  · intro hname
    have hjn : jsGet (JsVal.obj entries) "name" = .ok (JsVal.strV "action_cancel") := by
      rw [jsGet]
      simp [isUndefOrNull, getOwnKey, ownProps, hname]
      rfl
    rw [resolveActionProps, hjn] at hok
    simp only [bind, Except.bind, pure, Except.pure] at hok
    rw [show jsGet (JsVal.obj entries) "title"
        = .ok (getOwnKey (JsVal.obj entries) "title") from rfl] at hok
    simp only [bind, Except.bind, pure, Except.pure] at hok
    have hprops : props = JsVal.obj (assignList (assignList []
        [("type", JsVal.strV "button"), ("label", getOwnKey (JsVal.obj entries) "title")])
        entries) :=
      (Except.ok.inj hok).symm
    subst hprops
    rw [assignList_nil_eq _ (by simp [keysOf])]
    refine ⟨?_, ?_, ?_, ?_⟩
    · intro k v hkv
      rw [getOwnKey_obj, lookupKey_assignList_of_some _ _ _ _ hnd hkv]
      rfl
    · intro hn
      rw [getOwnKey_obj, lookupKey_assignList_of_none _ _ _ hn]
      rfl
    · intro hn
      rw [getOwnKey_obj, lookupKey_assignList_of_none _ _ _ hn]
      rfl
    · rw [objEntries_obj, mem_keysOf_assignList]
      simp [keysOf]
  · intro nm hname hns hnc
    have hjn : jsGet (JsVal.obj entries) "name" = .ok nm := by
      rw [jsGet]
      simp [isUndefOrNull, getOwnKey, ownProps, hname]
      rfl
    rw [resolveActionProps, hjn] at hok
    simp only [bind, Except.bind, pure, Except.pure] at hok
    exact (Except.ok.inj hok).symm
  · intro hname
    have hjn : jsGet (JsVal.obj entries) "name" = .ok JsVal.undef := by
      rw [jsGet]
      simp [isUndefOrNull, getOwnKey, ownProps, hname]
      rfl
    rw [resolveActionProps, hjn] at hok
    simp only [bind, Except.bind, pure, Except.pure] at hok
    exact (Except.ok.inj hok).symm

/-- Claim C4, witness: a concrete action_save action receives the submit
type, save icon, loading false (no form), primary style and its own name;
a concrete action_cancel action receives the button type and no icon. -/
theorem c4_witness :
    resolveActionProps JsVal.undef
        (JsVal.obj [("name", JsVal.strV "action_save"), ("title", JsVal.strV "Save")])
      = .ok (JsVal.obj [("type", JsVal.strV "submit"), ("label", JsVal.strV "Save"),
          ("icon", JsVal.strV "save"), ("loading", JsVal.boolV false),
          ("bootstrapButtonStyle", JsVal.strV "primary"),
          ("name", JsVal.strV "action_save"), ("title", JsVal.strV "Save")]) ∧
    getOwnKey (JsVal.obj [("type", JsVal.strV "submit"), ("label", JsVal.strV "Save"),
        ("icon", JsVal.strV "save"), ("loading", JsVal.boolV false),
        ("bootstrapButtonStyle", JsVal.strV "primary"),
        ("name", JsVal.strV "action_save"), ("title", JsVal.strV "Save")]) "type"
      = JsVal.strV "submit" ∧
    getOwnKey (JsVal.obj [("type", JsVal.strV "submit"), ("label", JsVal.strV "Save"),
        ("icon", JsVal.strV "save"), ("loading", JsVal.boolV false),
        ("bootstrapButtonStyle", JsVal.strV "primary"),
        ("name", JsVal.strV "action_save"), ("title", JsVal.strV "Save")]) "icon"
      = JsVal.strV "save" ∧
    ∃ props2,
      resolveActionProps JsVal.undef
          (JsVal.obj [("name", JsVal.strV "action_cancel"), ("title", JsVal.strV "Cancel")])
        = .ok props2 ∧
      getOwnKey props2 "type" = JsVal.strV "button" ∧
      "icon" ∉ keysOf (objEntries props2) := by
  have hok1 : resolveActionProps JsVal.undef
      (JsVal.obj [("name", JsVal.strV "action_save"), ("title", JsVal.strV "Save")])
    = .ok (JsVal.obj [("type", JsVal.strV "submit"), ("label", JsVal.strV "Save"),
        ("icon", JsVal.strV "save"), ("loading", JsVal.boolV false),
        ("bootstrapButtonStyle", JsVal.strV "primary"),
        ("name", JsVal.strV "action_save"), ("title", JsVal.strV "Save")]) := rfl
  have h1 := (c4_action_defaults JsVal.undef
      [("name", JsVal.strV "action_save"), ("title", JsVal.strV "Save")] _
      (by simp [keysOf]) hok1).1 rfl
  have hok2 : resolveActionProps JsVal.undef
      (JsVal.obj [("name", JsVal.strV "action_cancel"), ("title", JsVal.strV "Cancel")])
    = .ok (JsVal.obj [("type", JsVal.strV "button"), ("label", JsVal.strV "Cancel"),
        ("name", JsVal.strV "action_cancel"), ("title", JsVal.strV "Cancel")]) := rfl
  have h2 := (c4_action_defaults JsVal.undef
      [("name", JsVal.strV "action_cancel"), ("title", JsVal.strV "Cancel")] _
      (by simp [keysOf]) hok2).2.1 rfl
  refine ⟨hok1, h1.2.1 rfl, h1.2.2.2.1 rfl, ?_⟩
  refine ⟨_, hok2, h2.2.1 rfl, ?_⟩
  intro hm
  have := h2.2.2.2.1 hm
  simp [keysOf] at this

/-- Claim C2, counterexample.  The claim says state values take precedence
on conflicting keys.  With one schema field whose `value` is a plain object
and a state entry whose `value` is the number 5, rendering produces one
merged entry whose `value` is still the structural object: the recursive
merge keeps an object-valued base when the state value is not an object, so
the state value 5 does not take precedence. -/
theorem c2_counterexample :
    render
        (JsVal.obj [("u", JsVal.obj [("id", JsVal.strV "f1"), ("schema", JsVal.obj
          [("attributes", JsVal.obj []),
           ("fields", JsVal.arr [JsVal.obj [("value", JsVal.obj [])]]),
           ("actions", JsVal.arr []), ("data", JsVal.obj [])])])])
        (JsVal.obj [("f1", JsVal.obj [("fields", JsVal.arr
          [JsVal.obj [("id", JsVal.numV 1), ("value", JsVal.numV 5)]])])])
        "u"
      = .ok (some
          { actions := JsVal.arr [],
            attributes := JsVal.obj [("class", JsVal.null), ("className", JsVal.undef),
              ("enctype", JsVal.null), ("encType", JsVal.undef)],
            data := JsVal.obj [],
            fields := JsVal.arr [JsVal.obj [("value", JsVal.obj []), ("data", JsVal.undef),
              ("messages", JsVal.undef), ("valid", JsVal.undef)]],
            formId := JsVal.strV "f1" }) ∧
    getOwnKey (JsVal.obj [("value", JsVal.obj []), ("data", JsVal.undef),
        ("messages", JsVal.undef), ("valid", JsVal.undef)]) "value" = JsVal.obj [] ∧
    JsVal.obj [] ≠ JsVal.numV 5 := by
  refine ⟨?_, rfl, fun hc => JsVal.noConfusion hc⟩
  simp [render, getFormId, getFormSchema, jsGet, isUndefOrNull, getOwnKey, ownProps,
        lookupKey, jsTruthy, keyString, assignEntries, assignList, setKey, expectArr,
        mergeFieldsAt, mergeFieldData, fieldStateSubset, jsIndexNat, mergeRecursiveTwo,
        mergeItemEntries, mergeRecursiveFn, mergeObjEntries, isPlainObj, setObjKey,
        objEntries, List.getD, bind, Except.bind, pure, Except.pure]

/-- Claim C2 (amended): with N schema fields and N readable state entries,
rendering produces a merged list of exactly N entries; entry i is the
clone-mode recursive merge of schema field i with the four state keys
(data, messages, valid, value) read from state entry i.  The merged entry
carries the union of the structural keys and those four keys, structural
values on other keys are preserved, and on the four keys the entry holds
merge_recursive(structural value, state value): the state value takes
precedence whenever the structural value is not a plain object, while an
object-valued structural entry instead absorbs the state value's own
enumerable properties. -/
theorem c2_amended (url : String) (fid attrs actsV dataV : JsVal)
    (schemaFields stateFields : List JsVal)
    (hfid : jsTruthy fid = true)
    (hattrs : isUndefOrNull attrs = false)
    (hlen : schemaFields.length = stateFields.length)
    (hst : ∀ v ∈ stateFields, isUndefOrNull v = false) :
    ∃ out : List JsVal,
      render
        (JsVal.obj [(url, JsVal.obj [("id", fid), ("schema", JsVal.obj
          [("attributes", attrs), ("fields", JsVal.arr schemaFields),
           ("actions", actsV), ("data", dataV)])])])
        (JsVal.obj [(keyString fid, JsVal.obj [("fields", JsVal.arr stateFields)])])
        url
      = .ok (some
          { actions := actsV,
            attributes := JsVal.obj (assignEntries (assignEntries [] attrs)
              (JsVal.obj [("class", JsVal.null), ("className", getOwnKey attrs "class"),
                          ("enctype", JsVal.null), ("encType", getOwnKey attrs "enctype")])),
            data := dataV,
            fields := JsVal.arr out,
            formId := fid })
      ∧ out.length = schemaFields.length
      ∧ ∀ (j : Nat) (sf st m : JsVal), schemaFields[j]? = some sf →
          stateFields[j]? = some st → out[j]? = some m →
          m = (mergeRecursiveTwo true sf (fieldSubsetVal st)).1
          ∧ ∀ es, sf = JsVal.obj es → (keysOf es).Nodup →
              (∀ key, key ∈ keysOf (objEntries m)
                  ↔ key ∈ keysOf es ∨ key ∈ ["data", "messages", "valid", "value"])
              ∧ (∀ key, key ∈ keysOf es → key ∉ ["data", "messages", "valid", "value"] →
                  getOwnKey m key = getOwnKey sf key)
              ∧ (∀ key, key ∈ ["data", "messages", "valid", "value"] →
                  getOwnKey m key
                    = mergeRecursiveFn (getOwnKey sf key) (getOwnKey st key)
                  ∧ (isPlainObj (getOwnKey sf key) = false →
                      getOwnKey m key = getOwnKey st key)) := by
  obtain ⟨out, hout, hlen2, hpt⟩ := mergeFieldsAt_ok stateFields hst schemaFields 0
    (by omega)
  refine ⟨out, ?_, hlen2, ?_⟩
  · have h1 : jsGet (JsVal.obj [(url, JsVal.obj [("id", fid), ("schema", JsVal.obj
          [("attributes", attrs), ("fields", JsVal.arr schemaFields),
           ("actions", actsV), ("data", dataV)])])]) url
        = .ok (JsVal.obj [("id", fid), ("schema", JsVal.obj
          [("attributes", attrs), ("fields", JsVal.arr schemaFields),
           ("actions", actsV), ("data", dataV)])]) := by
      simp [jsGet, isUndefOrNull, getOwnKey, ownProps, lookupKey]
      rfl
    have h2 : jsGet (JsVal.obj [(keyString fid, JsVal.obj
          [("fields", JsVal.arr stateFields)])]) (keyString fid)
        = .ok (JsVal.obj [("fields", JsVal.arr stateFields)]) := by
      simp [jsGet, isUndefOrNull, getOwnKey, ownProps, lookupKey]
      rfl
    have hgfi : getFormId (JsVal.obj [(url, JsVal.obj [("id", fid), ("schema", JsVal.obj
          [("attributes", attrs), ("fields", JsVal.arr schemaFields),
           ("actions", actsV), ("data", dataV)])])]) url = .ok fid := by
      simp only [getFormId, getFormSchema, h1, bind, Except.bind, jsTruthy]
      rfl
    rw [render, hgfi]
    simp only [bind, Except.bind, pure, Except.pure, hfid]
    rw [show getFormSchema (JsVal.obj [(url, JsVal.obj [("id", fid), ("schema", JsVal.obj
          [("attributes", attrs), ("fields", JsVal.arr schemaFields),
           ("actions", actsV), ("data", dataV)])])]) url
        = .ok (JsVal.obj [("id", fid), ("schema", JsVal.obj
          [("attributes", attrs), ("fields", JsVal.arr schemaFields),
           ("actions", actsV), ("data", dataV)])]) from h1, h2]
    simp only [bind, Except.bind, pure, Except.pure, jsTruthy]
    rw [show jsGet (JsVal.obj [("id", fid), ("schema", JsVal.obj
          [("attributes", attrs), ("fields", JsVal.arr schemaFields),
           ("actions", actsV), ("data", dataV)])]) "schema"
        = .ok (JsVal.obj [("attributes", attrs), ("fields", JsVal.arr schemaFields),
           ("actions", actsV), ("data", dataV)]) from rfl]
    simp only [bind, Except.bind, pure, Except.pure]
    rw [show jsGet (JsVal.obj [("attributes", attrs), ("fields", JsVal.arr schemaFields),
           ("actions", actsV), ("data", dataV)]) "attributes" = .ok attrs from rfl]
    simp only [bind, Except.bind, pure, Except.pure]
    rw [show jsGet attrs "class" = .ok (getOwnKey attrs "class") from by
          rw [jsGet, hattrs]; rfl,
        show jsGet attrs "enctype" = .ok (getOwnKey attrs "enctype") from by
          rw [jsGet, hattrs]; rfl]
    simp only [bind, Except.bind, pure, Except.pure, jsTruthy, Bool.true_and]
    rw [show jsGet (JsVal.obj [("fields", JsVal.arr stateFields)]) "fields"
        = .ok (JsVal.arr stateFields) from rfl]
    simp only [bind, Except.bind, pure, Except.pure, jsTruthy]
    rw [show jsGet (JsVal.obj [("attributes", attrs), ("fields", JsVal.arr schemaFields),
           ("actions", actsV), ("data", dataV)]) "fields"
        = .ok (JsVal.arr schemaFields) from rfl]
    simp only [bind, Except.bind, pure, Except.pure, expectArr]
    rw [hout]
    simp only [bind, Except.bind, pure, Except.pure]
    rw [show jsGet (JsVal.obj [("attributes", attrs), ("fields", JsVal.arr schemaFields),
           ("actions", actsV), ("data", dataV)]) "actions" = .ok actsV from rfl]
    simp only [bind, Except.bind, pure, Except.pure]
    rw [show jsGet (JsVal.obj [("attributes", attrs), ("fields", JsVal.arr schemaFields),
           ("actions", actsV), ("data", dataV)]) "data" = .ok dataV from rfl]
    simp only [bind, Except.bind, pure, Except.pure]
    simp
  · intro j sf st m hsf hst2 hm
    have hptj := hpt j sf st hsf (by simpa using hst2)
    have hmx : m = (mergeRecursiveTwo true sf (fieldSubsetVal st)).1 :=
      Option.some.inj (hm.symm.trans hptj)
    refine ⟨hmx, ?_⟩
    intro es hes hnd
    subst hes
    subst hmx
    obtain ⟨k1, k2, k3⟩ := merged_entry_spec es st hnd
    refine ⟨k1, k2, fun key hk => ⟨k3 key hk, fun hnp => ?_⟩⟩
    rw [k3 key hk, mergeRecursiveFn_of_not_obj _ _ hnp]

/-- Claim C2 (amended), witness: one schema field and one state entry. -/
theorem c2_amended_witness :
    jsTruthy (JsVal.strV "f1") = true ∧
    (∀ v ∈ [JsVal.obj [("id", JsVal.numV 1), ("value", JsVal.strV "x")]],
        isUndefOrNull v = false) ∧
    ∃ out : List JsVal,
      render
        (JsVal.obj [("u", JsVal.obj [("id", JsVal.strV "f1"), ("schema", JsVal.obj
          [("attributes", JsVal.obj []),
           ("fields", JsVal.arr [JsVal.obj [("id", JsVal.numV 1), ("name", JsVal.strV "a")]]),
           ("actions", JsVal.arr []), ("data", JsVal.obj [])])])])
        (JsVal.obj [("f1", JsVal.obj [("fields", JsVal.arr
          [JsVal.obj [("id", JsVal.numV 1), ("value", JsVal.strV "x")]])])])
        "u"
      = .ok (some
          { actions := JsVal.arr [],
            attributes := JsVal.obj [("class", JsVal.null), ("className", JsVal.undef),
              ("enctype", JsVal.null), ("encType", JsVal.undef)],
            data := JsVal.obj [],
            fields := JsVal.arr out,
            formId := JsVal.strV "f1" })
      ∧ out.length = 1 := by
  have hst : ∀ v ∈ [JsVal.obj [("id", JsVal.numV 1), ("value", JsVal.strV "x")]],
      isUndefOrNull v = false := by
    intro v hv
    simp at hv
    subst hv
    rfl
  obtain ⟨out, h1, h2, h3⟩ := c2_amended "u" (JsVal.strV "f1") (JsVal.obj [])
    (JsVal.arr []) (JsVal.obj [])
    [JsVal.obj [("id", JsVal.numV 1), ("name", JsVal.strV "a")]]
    [JsVal.obj [("id", JsVal.numV 1), ("value", JsVal.strV "x")]]
    rfl rfl rfl hst
  refine ⟨rfl, hst, out, ?_, h2.trans rfl⟩
  simpa [keyString] using h1

end FormBuilderSpec
